import Mathlib

set_option maxRecDepth 1000000
set_option maxHeartbeats 4000000

/-!
Verification of the NexRemote windows_app connection and streaming engine.

Shallow embedding of the Python sources under src/windows_app/src/:
  - core/server.py          (NexRemoteServer stream bookkeeping, push loops)
  - streaming/screen_capture.py (MonitorCapture / MultiScreenCapture)
  - input/input_validator.py    (InputValidator rate limiting)
  - core/connection_manager.py  (ConnectionManager.request_approval)
  - security/authentication.py  (DeviceAuthenticator)
  - security/encryption.py      (MessageEncryption: AES-256-CBC, PKCS#7, base64)

Bytes are modeled as Nat values below 256; strings handled by the codec are
modeled by their UTF-8 byte sequences.  Python floats used as timestamps are
modeled by rationals.  Fallible Python code (raising exceptions) is modeled
with Except / Option results.
-/

namespace NexRemote

/-! ## Server stream-state model (core/server.py)

State of the stream bookkeeping of NexRemoteServer: the client map
(self.clients, keyed by client id), the running screen push-loop tasks
(self._screen_stream_tasks, keyed by (client_id, mss_monitor_index)), the
camera and media push-loop tasks, and the set of monitor indices whose
MonitorCapture producer thread is alive (self.screen_capture._captures).
Settings (fps, quality, resolution) are modeled separately below. -/

structure ServerState where
  clients : List String
  screenTasks : List (String × Int)
  cameraTasks : List String
  mediaTasks : List String
  captures : List Int
deriving DecidableEq

/-- Insert an element if absent; models idempotent dict insertion /
    "cancel existing task then store new one" (net membership unchanged). -/
def insertIfAbsent {α : Type} [DecidableEq α] (l : List α) (a : α) : List α :=
  if a ∈ l then l else l ++ [a]

/-- server.py line 295: `mss_idx = max(1, disp_idx + 1)` — a client 0-based
    display index is converted to the 1-based mss monitor index. -/
def mssIndex (d : Int) : Int := max 1 (d + 1)

/-- server.py `_handle_screen_share`, action "start" (lines 278-309): for each
    requested display index, the existing push task for (client, monitor) is
    cancelled and replaced, the per-monitor capture thread is started
    (start_monitor is idempotent), and a push loop task is stored. -/
def screenShareStart (s : ServerState) (cid : String) (indices : List Int) :
    ServerState :=
  indices.foldl
    (fun st d =>
      let m := mssIndex d
      { st with
        screenTasks := insertIfAbsent st.screenTasks (cid, m)
        captures := insertIfAbsent st.captures m })
    s

/-- Does a screen-task key match a stop request?  server.py line 321:
    `k[0] == client_id and (stop_idx is None or k[1] == stop_idx + 1)`. -/
def stopMatches (cid : String) (stopIdx : Option Int) (k : String × Int) :
    Bool :=
  k.1 = cid && (match stopIdx with
                | none => true
                | some i => k.2 = i + 1)

/-- server.py `_handle_screen_share`, action "stop" (lines 316-327): every
    matching push task is cancelled and removed, and for each one
    `stop_monitor(k[1])` unconditionally stops the producer of that monitor. -/
def screenShareStop (s : ServerState) (cid : String) (stopIdx : Option Int) :
    ServerState :=
  let cancelled := s.screenTasks.filter (stopMatches cid stopIdx)
  { s with
    screenTasks := s.screenTasks.filter (fun k => ¬ stopMatches cid stopIdx k)
    captures := s.captures.filter (fun m => ¬ cancelled.any (fun k => k.2 = m)) }

/-- server.py `_stop_client_streams` (lines 582-593), run on client
    disconnect: cancels and deletes the screen, camera and media
    push tasks.  It never calls stop_monitor, so `captures` is untouched. -/
def stopClientStreams (s : ServerState) (cid : String) : ServerState :=
  { s with
    screenTasks := s.screenTasks.filter (fun k => ¬ k.1 = cid)
    cameraTasks := s.cameraTasks.filter (fun c => ¬ c = cid)
    mediaTasks := s.mediaTasks.filter (fun c => ¬ c = cid) }

/-- server.py `_handle_media_control` (lines 428-444): after executing the
    media command (any action), the media state push loop is started for the
    client if it is not already running.  No action ever cancels it. -/
def handleMediaControl (s : ServerState) (cid : String) (_action : String) :
    ServerState :=
  { s with mediaTasks := insertIfAbsent s.mediaTasks cid }

/-- server.py `_media_push_loop` line 465: `await asyncio.sleep(1.5)` —
    the push period of the media state loop, in seconds. -/
def mediaPushPeriod : ℚ := 3 / 2

/-- server.py `_media_push_loop` line 454: the loop continues while the
    client is still in the client map (`while client_id in self.clients`). -/
def mediaLoopGuard (s : ServerState) (cid : String) : Bool := cid ∈ s.clients

/-! ## Screen push-loop binary frames (server.py `_screen_push_loop`) -/

/-- server.py line 33: `SCREEN_HEADER` = the bytes of "SCRN" (ASCII bytes). -/
def SCREEN_HEADER : List Nat := [83, 67, 82, 78]

/-- Python `n.to_bytes(1, "big")`: one byte when 0 ≤ n < 256, raises
    OverflowError otherwise (modeled as none). -/
def toBytes1 (n : Int) : Option Nat :=
  if 0 ≤ n ∧ n < 256 then some n.toNat else none

/-- server.py lines 396-397 and 406: the frame a screen push loop sends for
    its mss monitor index —
    `header = SCRN + max(0, monitor_index - 1).to_bytes(1, "big")` then
    `header + frame`.  If to_bytes raises, the loop dies before any send. -/
def screenPushFrame (monitorIndex : Int) (jpeg : List Nat) :
    Option (List Nat) :=
  match toBytes1 (max 0 (monitorIndex - 1)) with
  | some b => some (SCREEN_HEADER ++ [b] ++ jpeg)
  | none => none

/-! ## Screen capture settings (streaming/screen_capture.py)

`MonitorCapture` holds the per-monitor settings read by its capture thread;
`MultiScreenCapture` holds the global defaults plus the dictionary of active
captures keyed by mss monitor index.  Python ints are modeled as Int. -/

/-- screen_capture.py line 28: the RESOLUTION_PRESETS dictionary keys. -/
def RESOLUTION_PRESET_KEYS : List String :=
  ["native", "1080p", "720p", "480p", "360p"]

structure MonitorCapture where
  monitor_index : Int
  fps : Int
  quality : Int
  resolution : String
deriving DecidableEq

/-- screen_capture.py lines 110-111: `self.fps = max(1, min(60, fps))`. -/
def MonitorCapture.set_fps (c : MonitorCapture) (fps : Int) : MonitorCapture :=
  { c with fps := max 1 (min 60 fps) }

/-- screen_capture.py lines 113-114: `self.quality = max(1, min(100, quality))`. -/
def MonitorCapture.set_quality (c : MonitorCapture) (quality : Int) :
    MonitorCapture :=
  { c with quality := max 1 (min 100 quality) }

/-- screen_capture.py lines 116-118: the resolution is stored only when the
    string is a RESOLUTION_PRESETS key; otherwise nothing changes. -/
def MonitorCapture.set_resolution (c : MonitorCapture) (resolution : String) :
    MonitorCapture :=
  if resolution ∈ RESOLUTION_PRESET_KEYS then { c with resolution := resolution }
  else c

structure MultiScreenCapture where
  fps : Int
  quality : Int
  resolution : String
  monitor_index : Int
  captures : List (Int × MonitorCapture)
deriving DecidableEq

/-- screen_capture.py `MultiScreenCapture.set_fps` (lines 305-310): clamp the
    global default to [1,60], then apply it to every active capture. -/
def MultiScreenCapture.set_fps (m : MultiScreenCapture) (fps : Int) :
    MultiScreenCapture :=
  let v := max 1 (min 60 fps)
  { m with
    fps := v
    captures := m.captures.map (fun kc => (kc.1, kc.2.set_fps v)) }

/-- screen_capture.py `MultiScreenCapture.set_quality` (lines 298-303). -/
def MultiScreenCapture.set_quality (m : MultiScreenCapture) (quality : Int) :
    MultiScreenCapture :=
  let v := max 1 (min 100 quality)
  { m with
    quality := v
    captures := m.captures.map (fun kc => (kc.1, kc.2.set_quality v)) }

/-- screen_capture.py `MultiScreenCapture.set_resolution` (lines 312-318):
    only a known preset key is stored and propagated; an unknown string
    leaves the whole object unchanged. -/
def MultiScreenCapture.set_resolution (m : MultiScreenCapture)
    (resolution : String) : MultiScreenCapture :=
  if resolution ∈ RESOLUTION_PRESET_KEYS then
    { m with
      resolution := resolution
      captures := m.captures.map (fun kc => (kc.1, kc.2.set_resolution resolution)) }
  else m

/-- Python list indexing `l[i]` with a possibly negative int index. -/
def pyIndex {α : Type} (l : List α) (i : Int) : Option α :=
  if 0 ≤ i then l.get? i.toNat
  else
    let j : Int := (l.length : Int) + i
    if 0 ≤ j then l.get? j.toNat else none

/-- screen_capture.py `MonitorCapture._capture_one` lines 143-148: monitor
    selection against the OS monitor list —
    `if self.monitor_index >= len(monitors): mon = monitors[1] if
    len(monitors) > 1 else monitors[0] else: mon = monitors[self.monitor_index]`. -/
def selectCaptureMonitor {α : Type} (monitors : List α) (idx : Int) :
    Option α :=
  if idx ≥ (monitors.length : Int) then
    if monitors.length > 1 then monitors.get? 1 else monitors.get? 0
  else pyIndex monitors idx

/-! ## Input validation and rate limiting (input/input_validator.py) -/

/-- The decoded JSON message fields consulted by InputValidator.validate and
    the dispatcher: the top-level type, the optional client_id used as rate
    key, and the keyboard/mouse action and gamepad input_type vocabulary
    fields. -/
structure InMsg where
  type : String
  client_id : Option String
  action : Option String
  input_type : Option String
deriving DecidableEq

/-- input_validator.py lines 6-11: the valid_types set. -/
def valid_types : List String :=
  ["keyboard", "mouse", "gamepad", "clipboard", "request_screen",
   "file_transfer", "screen_share", "media_control", "task_manager",
   "camera", "sensor", "file_explorer"]

/-- input_validator.py line 15: `self.max_rate = 1000`. -/
def max_rate : Nat := 1000

/-- The rate_limits dictionary: message client_id → timestamps (seconds). -/
structure InputValidator where
  rate_limits : List (String × List ℚ)
deriving DecidableEq

/-- Python `dict` read with a default (missing key → empty bucket). -/
def lookupBucket (rl : List (String × List ℚ)) (k : String) : List ℚ :=
  match rl with
  | [] => []
  | (k', v) :: rest => if k' = k then v else lookupBucket rest k

/-- Python `dict` write (replace or append the key). -/
def setBucket (rl : List (String × List ℚ)) (k : String) (v : List ℚ) :
    List (String × List ℚ) :=
  match rl with
  | [] => [(k, v)]
  | (k', v') :: rest =>
      if k' = k then (k, v) :: rest else (k', v') :: setBucket rest k v

/-- input_validator.py `_validate_keyboard` / `_validate_mouse` /
    `_validate_gamepad` (lines 54-68) plus the trailing `return True`. -/
def typeSpecificValid (data : InMsg) : Bool :=
  if data.type = "keyboard" then
    data.action ∈ (["type", "press", "release", "hotkey"].map Option.some)
  else if data.type = "mouse" then
    data.action ∈ (["move", "move_relative", "click", "press", "release",
                    "scroll"].map Option.some)
  else if data.type = "gamepad" then
    data.input_type ∈ (["button", "trigger", "joystick", "dpad", "gyro"].map
                        Option.some)
  else true

/-- input_validator.py `InputValidator.validate` (lines 17-52).  Returns the
    verdict and the updated validator.  The rate key is
    `data.get("client_id", "unknown")` — a field of the message itself, not
    the server session.  The bucket is pruned to the last second, the message
    is rejected when the pruned bucket already holds max_rate entries, and
    otherwise the current time is appended before the type-specific check. -/
def InputValidator.validate (v : InputValidator) (now : ℚ) (data : InMsg) :
    Bool × InputValidator :=
  if ¬ data.type ∈ valid_types then (false, v)
  else
    let key := data.client_id.getD "unknown"
    let pruned := (lookupBucket v.rate_limits key).filter
      (fun t => now - t < 1)
    if max_rate ≤ pruned.length then
      (false, ⟨setBucket v.rate_limits key pruned⟩)
    else
      (typeSpecificValid data, ⟨setBucket v.rate_limits key (pruned ++ [now])⟩)

/-- Outcome of server.py `process_message` for one decoded message: whether
    it was routed to a handler, and the response sent back (keyboard, mouse,
    gamepad and clipboard handlers send none). -/
structure ProcOut where
  processed : Bool
  response : Option String
deriving DecidableEq

/-- server.py lines 245-256: only file_explorer and task_manager requests
    produce a direct response envelope. -/
def handlerResponse (data : InMsg) : Option String :=
  if data.type = "file_explorer" ∨ data.type = "task_manager" then
    some "response"
  else none

/-- server.py `process_message` (lines 221-269) after decode, for one
    session: `validate(data)` is called (the session id is NOT passed to the
    validator); a failed validation only logs and returns — the message is
    dropped with no response and the session keeps running. -/
def processDecoded (v : InputValidator) (now : ℚ) (_sessionId : String)
    (data : InMsg) : ProcOut × InputValidator :=
  let r := v.validate now data
  if r.1 then ({ processed := true, response := handlerResponse data }, r.2)
  else ({ processed := false, response := none }, r.2)

/-- Run a list of decoded messages of one session through process_message,
    counting how many were processed. -/
def runSession (v : InputValidator) (now : ℚ) (sessionId : String) :
    List InMsg → Nat × InputValidator
  | [] => (0, v)
  | m :: ms =>
      let r := processDecoded v now sessionId m
      let rest := runSession r.2 now sessionId ms
      ((if r.1.processed then 1 else 0) + rest.1, rest.2)

/-- The keyboard message of spec scenario 5:
    type keyboard, action type, no client_id field. -/
def kbMsg : InMsg := ⟨"keyboard", none, some "type", none⟩

/-- A fresh validator (empty rate_limits dict). -/
def emptyValidator : InputValidator := ⟨[]⟩

/-! ## Connection approval (core/connection_manager.py) -/

/-- The configuration keys read by ConnectionManager.request_approval.
    connection_manager.py line 24 reads `config.get("require_approval", True)`
    — this is the only policy key consulted. -/
structure CMConfig where
  require_approval : Bool
deriving DecidableEq

/-- Observable behavior of `ConnectionManager.request_approval` (lines
    22-47): either the result is synthesized immediately (no PendingApproval
    entry is created), or a PendingApproval future is published and the
    coroutine waits up to 60 s for an external decision. -/
inductive ApprovalPath
  | immediate (approved : Bool)
  | pending
deriving DecidableEq

/-- connection_manager.py `request_approval`: when require_approval is off
    the connection is approved at once; otherwise a future is stored in
    pending_approvals and awaited.  The trusted-device store is not
    consulted (it belongs to DeviceAuthenticator, which this method never
    touches). -/
def requestApproval (cfg : CMConfig) (_device_id _device_name : String) :
    ApprovalPath :=
  if ¬ cfg.require_approval then .immediate true else .pending

/-! ## Device authentication and the handshake (security/authentication.py,
    server.py handle_client) -/

/-- trusted_devices.json record value. -/
structure TrustInfo where
  name : String
  first_connected : ℚ
  last_connected : ℚ
deriving DecidableEq

/-- The parsed first frame: the two identity fields handle_client reads.
    A missing key or an empty string is falsy in Python. -/
structure AuthData where
  device_id : Option String
  device_name : Option String
deriving DecidableEq

def pyTruthy (s : Option String) : Bool :=
  match s with
  | none => false
  | some s => ¬ s = ""

def lookupTrust (t : List (String × TrustInfo)) (k : String) :
    Option TrustInfo :=
  match t with
  | [] => none
  | (k', v) :: rest => if k' = k then some v else lookupTrust rest k

def setTrust (t : List (String × TrustInfo)) (k : String) (v : TrustInfo) :
    List (String × TrustInfo) :=
  match t with
  | [] => [(k, v)]
  | (k', v') :: rest =>
      if k' = k then (k, v) :: rest else (k', v') :: setTrust rest k v

/-- authentication.py `DeviceAuthenticator.validate` (lines 29-45): reject
    when device_id or device_name is falsy; for an already-trusted device
    refresh last_connected and accept; a NEW device is also accepted (the
    approval step decides) — and nothing is added to the trusted store. -/
def deviceValidate (trusted : List (String × TrustInfo)) (now : ℚ)
    (d : AuthData) : Bool × List (String × TrustInfo) :=
  if ¬ (pyTruthy d.device_id ∧ pyTruthy d.device_name) then (false, trusted)
  else
    match d.device_id with
    | none => (false, trusted)
    | some did =>
        match lookupTrust trusted did with
        | some info =>
            (true, setTrust trusted did { info with last_connected := now })
        | none => (true, trusted)

/-- server.py `get_capabilities` (lines 634-645): the capability object of
    the auth_success frame — exactly these eight boolean keys. -/
def getCapabilities : List (String × Bool) :=
  [("keyboard", true), ("mouse", true), ("gamepad", true),
   ("screen_streaming", true), ("camera_streaming", true),
   ("file_transfer", true), ("clipboard", true), ("multi_display", true)]

/-- The response frame handle_client sends after the first message. -/
inductive HandshakeResult
  | auth_failed
  | connection_rejected
  | auth_success (server_name : String) (capabilities : List (String × Bool))
deriving DecidableEq

/-- server.py `handle_client` (lines 146-197) from the parsed auth frame to
    the reply: validate, then request_approval (pendingDecision stands for
    the external UI decision awaited when a PendingApproval was published),
    then the auth_success frame with get_capabilities().  Returns the reply
    and the final trusted-device store. -/
def handshake (trusted : List (String × TrustInfo)) (cfg : CMConfig)
    (serverName : String) (d : AuthData) (now : ℚ) (pendingDecision : Bool) :
    HandshakeResult × List (String × TrustInfo) :=
  let rv := deviceValidate trusted now d
  if ¬ rv.1 then (.auth_failed, rv.2)
  else
    let approved :=
      match requestApproval cfg (d.device_id.getD "") (d.device_name.getD "") with
      | .immediate b => b
      | .pending => pendingDecision
    if approved then (.auth_success serverName getCapabilities, rv.2)
    else (.connection_rejected, rv.2)

/-! ## Message encryption (security/encryption.py)

`MessageEncryption.encrypt` is
`base64(AES-256-CBC(PKCS7-pad(utf8(data)), key, iv))` with the fixed key
`utf8("nexremote_encryption_key_32chars")` (exactly 32 bytes) and the
all-zero 16-byte IV; `decrypt` is the inverse and raises on failure.  The
AES-256 block cipher, the CBC mode, PKCS#7 and base64 are provided by the
`cryptography` and `base64` libraries; they are embedded here in full
(FIPS-197 AES) so that the codec is executable end to end.  Bytes are Nat
values below 256. -/

/-- The AES S-box (FIPS-197 figure 7). -/
def sboxTable : List Nat :=
  [99, 124, 119, 123, 242, 107, 111, 197, 48, 1, 103, 43, 254, 215, 171, 118,
   202, 130, 201, 125, 250, 89, 71, 240, 173, 212, 162, 175, 156, 164, 114, 192,
   183, 253, 147, 38, 54, 63, 247, 204, 52, 165, 229, 241, 113, 216, 49, 21,
   4, 199, 35, 195, 24, 150, 5, 154, 7, 18, 128, 226, 235, 39, 178, 117,
   9, 131, 44, 26, 27, 110, 90, 160, 82, 59, 214, 179, 41, 227, 47, 132,
   83, 209, 0, 237, 32, 252, 177, 91, 106, 203, 190, 57, 74, 76, 88, 207,
   208, 239, 170, 251, 67, 77, 51, 133, 69, 249, 2, 127, 80, 60, 159, 168,
   81, 163, 64, 143, 146, 157, 56, 245, 188, 182, 218, 33, 16, 255, 243, 210,
   205, 12, 19, 236, 95, 151, 68, 23, 196, 167, 126, 61, 100, 93, 25, 115,
   96, 129, 79, 220, 34, 42, 144, 136, 70, 238, 184, 20, 222, 94, 11, 219,
   224, 50, 58, 10, 73, 6, 36, 92, 194, 211, 172, 98, 145, 149, 228, 121,
   231, 200, 55, 109, 141, 213, 78, 169, 108, 86, 244, 234, 101, 122, 174, 8,
   186, 120, 37, 46, 28, 166, 180, 198, 232, 221, 116, 31, 75, 189, 139, 138,
   112, 62, 181, 102, 72, 3, 246, 14, 97, 53, 87, 185, 134, 193, 29, 158,
   225, 248, 152, 17, 105, 217, 142, 148, 155, 30, 135, 233, 206, 85, 40, 223,
   140, 161, 137, 13, 191, 230, 66, 104, 65, 153, 45, 15, 176, 84, 187, 22]

/-- The AES inverse S-box (FIPS-197 figure 14). -/
def invSboxTable : List Nat :=
  [82, 9, 106, 213, 48, 54, 165, 56, 191, 64, 163, 158, 129, 243, 215, 251,
   124, 227, 57, 130, 155, 47, 255, 135, 52, 142, 67, 68, 196, 222, 233, 203,
   84, 123, 148, 50, 166, 194, 35, 61, 238, 76, 149, 11, 66, 250, 195, 78,
   8, 46, 161, 102, 40, 217, 36, 178, 118, 91, 162, 73, 109, 139, 209, 37,
   114, 248, 246, 100, 134, 104, 152, 22, 212, 164, 92, 204, 93, 101, 182, 146,
   108, 112, 72, 80, 253, 237, 185, 218, 94, 21, 70, 87, 167, 141, 157, 132,
   144, 216, 171, 0, 140, 188, 211, 10, 247, 228, 88, 5, 184, 179, 69, 6,
   208, 44, 30, 143, 202, 63, 15, 2, 193, 175, 189, 3, 1, 19, 138, 107,
   58, 145, 17, 65, 79, 103, 220, 234, 151, 242, 207, 206, 240, 180, 230, 115,
   150, 172, 116, 34, 231, 173, 53, 133, 226, 249, 55, 232, 28, 117, 223, 110,
   71, 241, 26, 113, 29, 41, 197, 137, 111, 183, 98, 14, 170, 24, 190, 27,
   252, 86, 62, 75, 198, 210, 121, 32, 154, 219, 192, 254, 120, 205, 90, 244,
   31, 221, 168, 51, 136, 7, 199, 49, 177, 18, 16, 89, 39, 128, 236, 95,
   96, 81, 127, 169, 25, 181, 74, 13, 45, 229, 122, 159, 147, 201, 156, 239,
   160, 224, 59, 77, 174, 42, 245, 176, 200, 235, 187, 60, 131, 83, 153, 97,
   23, 43, 4, 126, 186, 119, 214, 38, 225, 105, 20, 99, 85, 33, 12, 125]

def sbox (x : Nat) : Nat := sboxTable.getD x 0

def invSbox (x : Nat) : Nat := invSboxTable.getD x 0

/-- Multiplication by x in GF(2^8) modulo the AES polynomial x^8+x^4+x^3+x+1
    (0x11b = 283), on bytes. -/
def xtime (x : Nat) : Nat := if x < 128 then 2 * x else (2 * x) ^^^ 283

/-- GF(2^8) multiplication by the constants used in (Inv)MixColumns. -/
def g2 (x : Nat) : Nat := xtime x

def g3 (x : Nat) : Nat := xtime x ^^^ x

def g9 (x : Nat) : Nat := xtime (xtime (xtime x)) ^^^ x

def g11 (x : Nat) : Nat := xtime (xtime (xtime x)) ^^^ xtime x ^^^ x

def g13 (x : Nat) : Nat := xtime (xtime (xtime x)) ^^^ xtime (xtime x) ^^^ x

def g14 (x : Nat) : Nat := xtime (xtime (xtime x)) ^^^ xtime (xtime x) ^^^ xtime x

def subBytes (b : List Nat) : List Nat := b.map sbox

def invSubBytes (b : List Nat) : List Nat := b.map invSbox

/-- AES ShiftRows on the flat column-major 16-byte state. -/
def shiftRows : List Nat → List Nat
  | [s0, s1, s2, s3, s4, s5, s6, s7, s8, s9, s10, s11, s12, s13, s14, s15] =>
      [s0, s5, s10, s15, s4, s9, s14, s3, s8, s13, s2, s7, s12, s1, s6, s11]
  | l => l

def invShiftRows : List Nat → List Nat
  | [s0, s1, s2, s3, s4, s5, s6, s7, s8, s9, s10, s11, s12, s13, s14, s15] =>
      [s0, s13, s10, s7, s4, s1, s14, s11, s8, s5, s2, s15, s12, s9, s6, s3]
  | l => l

/-- One MixColumns column. -/
def mixCol (a b c d : Nat) : List Nat :=
  [g2 a ^^^ g3 b ^^^ c ^^^ d, a ^^^ g2 b ^^^ g3 c ^^^ d,
   a ^^^ b ^^^ g2 c ^^^ g3 d, g3 a ^^^ b ^^^ c ^^^ g2 d]

/-- One InvMixColumns column. -/
def invMixCol (a b c d : Nat) : List Nat :=
  [g14 a ^^^ g11 b ^^^ g13 c ^^^ g9 d, g9 a ^^^ g14 b ^^^ g11 c ^^^ g13 d,
   g13 a ^^^ g9 b ^^^ g14 c ^^^ g11 d, g11 a ^^^ g13 b ^^^ g9 c ^^^ g14 d]

def mixColumns : List Nat → List Nat
  | [a0, a1, a2, a3, b0, b1, b2, b3, c0, c1, c2, c3, d0, d1, d2, d3] =>
      mixCol a0 a1 a2 a3 ++ mixCol b0 b1 b2 b3 ++ mixCol c0 c1 c2 c3 ++
        mixCol d0 d1 d2 d3
  | l => l

def invMixColumns : List Nat → List Nat
  | [a0, a1, a2, a3, b0, b1, b2, b3, c0, c1, c2, c3, d0, d1, d2, d3] =>
      invMixCol a0 a1 a2 a3 ++ invMixCol b0 b1 b2 b3 ++ invMixCol c0 c1 c2 c3 ++
        invMixCol d0 d1 d2 d3
  | l => l

def addRoundKey (rk st : List Nat) : List Nat := List.zipWith (· ^^^ ·) rk st

/-- Split a byte list into 16-byte cipher blocks (structural recursion so
    the kernel can evaluate it; a leftover shorter than 16 is kept as a
    final short chunk, which never happens on block-aligned input). -/
def chunks16 : List Nat → List (List Nat)
  | a0 :: a1 :: a2 :: a3 :: a4 :: a5 :: a6 :: a7 ::
    a8 :: a9 :: a10 :: a11 :: a12 :: a13 :: a14 :: a15 :: rest =>
      [a0, a1, a2, a3, a4, a5, a6, a7, a8, a9, a10, a11, a12, a13, a14, a15] ::
        chunks16 rest
  | [] => []
  | l => [l]

/-- Split a byte list into 4-byte key-schedule words. -/
def chunks4 : List Nat → List (List Nat)
  | a :: b :: c :: d :: rest => [a, b, c, d] :: chunks4 rest
  | [] => []
  | l => [l]

/-! AES-256 key expansion (FIPS-197 section 5.2): Nk = 8 words, Nr = 14
    rounds, 60 words = 15 round keys. -/

def rotWord : List Nat → List Nat
  | [a, b, c, d] => [b, c, d, a]
  | w => w

def subWord (w : List Nat) : List Nat := w.map sbox

def xorFirst (n : Nat) : List Nat → List Nat
  | [] => []
  | x :: r => (x ^^^ n) :: r

def rconVal (i : Nat) : Nat := [0, 1, 2, 4, 8, 16, 32, 64].getD i 0

def keyExpandStep (ws : List (List Nat)) : List (List Nat) :=
  let i := ws.length
  let temp := ws.getLast?.getD []
  let tw :=
    if i % 8 = 0 then xorFirst (rconVal (i / 8)) (subWord (rotWord temp))
    else if i % 8 = 4 then subWord temp
    else temp
  ws ++ [List.zipWith (· ^^^ ·) (ws.getD (i - 8) []) tw]

def keyWords (key : List Nat) : List (List Nat) :=
  (List.range 52).foldl (fun ws _ => keyExpandStep ws) (chunks4 key)

def roundKeysOf (key : List Nat) : List (List Nat) :=
  chunks16 (keyWords key).flatten

/-- The AES rounds after the initial AddRoundKey: all but the last round key
    drive a full round; the last one drives the final (MixColumns-free)
    round. -/
def aesEncRounds (rks : List (List Nat)) (b : List Nat) : List Nat :=
  match rks with
  | [] => b
  | [rk] => addRoundKey rk (shiftRows (subBytes b))
  | rk :: rks' => aesEncRounds rks' (addRoundKey rk (mixColumns (shiftRows (subBytes b))))

def aesEncBlock (rks : List (List Nat)) (b : List Nat) : List Nat :=
  match rks with
  | [] => b
  | rk :: rest => aesEncRounds rest (addRoundKey rk b)

/-- The straightforward inverse cipher: undo the rounds in reverse order. -/
def aesDecRounds (rks : List (List Nat)) (c : List Nat) : List Nat :=
  match rks with
  | [] => c
  | [rk] => invSubBytes (invShiftRows (addRoundKey rk c))
  | rk :: rks' =>
      invSubBytes (invShiftRows (invMixColumns (addRoundKey rk (aesDecRounds rks' c))))

def aesDecBlock (rks : List (List Nat)) (c : List Nat) : List Nat :=
  match rks with
  | [] => c
  | rk :: rest => addRoundKey rk (aesDecRounds rest c)

/-- encryption.py line 16-18: the key is the first 32 bytes of the UTF-8
    string "nexremote_encryption_key_32chars" (exactly 32 bytes long). -/
def nexKeyBytes : List Nat :=
  [110, 101, 120, 114, 101, 109, 111, 116, 101, 95, 101, 110, 99, 114, 121, 112,
   116, 105, 111, 110, 95, 107, 101, 121, 95, 51, 50, 99, 104, 97, 114, 115]

def nexRoundKeys : List (List Nat) := roundKeysOf nexKeyBytes

/-- encryption.py line 22: `self.iv = bytes(16)` — 16 zero bytes. -/
def zeroIV : List Nat := List.replicate 16 0

def xorBlock (a b : List Nat) : List Nat := List.zipWith (· ^^^ ·) a b

/-- CBC encryption over 16-byte blocks (each ciphertext block chains as the
    next IV). -/
def cbcEncBlocks (rks : List (List Nat)) (iv : List Nat) :
    List (List Nat) → List (List Nat)
  | [] => []
  | b :: bs =>
      let c := aesEncBlock rks (xorBlock iv b)
      c :: cbcEncBlocks rks c bs

def cbcDecBlocks (rks : List (List Nat)) (iv : List Nat) :
    List (List Nat) → List (List Nat)
  | [] => []
  | c :: cs => xorBlock iv (aesDecBlock rks c) :: cbcDecBlocks rks c cs

/-- PKCS#7 padding to the 16-byte block size: append n copies of n where
    n = 16 - len mod 16 (always between 1 and 16). -/
def pkcs7pad (data : List Nat) : List Nat :=
  let n := 16 - data.length % 16
  data ++ List.replicate n n

/-- PKCS#7 unpadding as validated by the cryptography library: block-aligned
    nonempty input whose last byte n is between 1 and 16 and whose last n
    bytes all equal n; anything else raises ValueError. -/
def pkcs7unpad (data : List Nat) : Except String (List Nat) :=
  if data.length = 0 ∨ ¬ data.length % 16 = 0 then
    .error "ValueError: invalid padded length"
  else
    if 1 ≤ data.getLast?.getD 0 ∧ data.getLast?.getD 0 ≤ 16 ∧
        data.getLast?.getD 0 ≤ data.length ∧
        (data.drop (data.length - data.getLast?.getD 0)).all
          (fun x => x = data.getLast?.getD 0) then
      .ok (data.take (data.length - data.getLast?.getD 0))
    else .error "ValueError: invalid padding bytes"

/-- The RFC 4648 base64 alphabet as ASCII codes. -/
def b64Table : List Nat :=
  [65, 66, 67, 68, 69, 70, 71, 72, 73, 74, 75, 76, 77, 78, 79, 80,
   81, 82, 83, 84, 85, 86, 87, 88, 89, 90, 97, 98, 99, 100, 101, 102,
   103, 104, 105, 106, 107, 108, 109, 110, 111, 112, 113, 114, 115, 116, 117, 118,
   119, 120, 121, 122, 48, 49, 50, 51, 52, 53, 54, 55, 56, 57, 43, 47]

def b64Char (i : Nat) : Nat := b64Table.getD i 0

def b64Val (c : Nat) : Option Nat := b64Table.findIdx? (· = c)

/-- Python `base64.b64encode` on a byte list: 3 bytes → 4 alphabet chars; a final
    group of 2 or 1 bytes is completed with "=" (ASCII 61) padding. -/
def b64encode : List Nat → List Nat
  | a :: b :: c :: rest =>
      [b64Char (a / 4), b64Char (a % 4 * 16 + b / 16),
       b64Char (b % 16 * 4 + c / 64), b64Char (c % 64)] ++ b64encode rest
  | [a, b] =>
      [b64Char (a / 4), b64Char (a % 4 * 16 + b / 16), b64Char (b % 16 * 4), 61]
  | [a] => [b64Char (a / 4), b64Char (a % 4 * 16), 61, 61]
  | [] => []

/-- Python `base64.b64decode`: inverse of b64encode; a malformed length, a
    non-alphabet character or misplaced "=" padding raises (error). -/
def b64decode : List Nat → Except String (List Nat)
  | [] => .ok []
  | c1 :: c2 :: c3 :: c4 :: rest =>
      if c3 = 61 ∧ c4 = 61 ∧ rest = [] then
        match b64Val c1, b64Val c2 with
        | some v1, some v2 => .ok [v1 * 4 + v2 / 16]
        | _, _ => .error "binascii.Error: invalid base64"
      else if c4 = 61 ∧ rest = [] then
        match b64Val c1, b64Val c2, b64Val c3 with
        | some v1, some v2, some v3 =>
            .ok [v1 * 4 + v2 / 16, v2 % 16 * 16 + v3 / 4]
        | _, _, _ => .error "binascii.Error: invalid base64"
      else
        match b64Val c1, b64Val c2, b64Val c3, b64Val c4 with
        | some v1, some v2, some v3, some v4 =>
            match b64decode rest with
            | .ok tail =>
                .ok ([v1 * 4 + v2 / 16, v2 % 16 * 16 + v3 / 4,
                      v3 % 4 * 64 + v4] ++ tail)
            | .error e => .error e
        | _, _, _, _ => .error "binascii.Error: invalid base64"
  | _ => .error "binascii.Error: invalid base64 length"

/-- encryption.py `MessageEncryption.encrypt` (lines 31-46) at the byte
    level (the string argument is represented by its UTF-8 bytes):
    PKCS#7-pad, AES-256-CBC-encrypt with the fixed key and zero IV,
    base64-encode. -/
def encrypt (data : List Nat) : List Nat :=
  b64encode ((cbcEncBlocks nexRoundKeys zeroIV (chunks16 (pkcs7pad data))).flatten)

/-- encryption.py `MessageEncryption.decrypt` (lines 48-97) on a websocket
    text frame (the str input branch): base64-decode, AES-256-CBC-decrypt
    (the cipher finalize raises when the data is not block aligned), PKCS#7
    unpad.  Any failure propagates as an exception (the function re-raises
    after logging), modeled as an error result. -/
def decryptRaw (ct : List Nat) : Except String (List Nat) :=
  if ¬ ct.length % 16 = 0 then
    .error "ValueError: data not block aligned"
  else pkcs7unpad ((cbcDecBlocks nexRoundKeys zeroIV (chunks16 ct)).flatten)

def decrypt (payload : List Nat) : Except String (List Nat) :=
  match b64decode payload with
  | .error e => .error e
  | .ok ct => decryptRaw ct

/-- Outcome of server.py `process_message` lines 221-269 for one raw text
    frame, at the decode stage: a decryption failure is caught by the
    exception boundary of the handler — the message is dropped (logged only,
    nothing dispatched, no response); otherwise the decrypted plaintext goes
    on to JSON parsing and dispatch (modeled by processDecoded). -/
inductive RawOutcome
  | droppedDecryptError
  | dispatched (plaintext : List Nat)
deriving DecidableEq

def processRaw (payload : List Nat) : RawOutcome :=
  match decrypt payload with
  | .error _ => .droppedDecryptError
  | .ok bs => .dispatched bs

/-! ## Auxiliary predicates and concrete scenario states -/

/-- All entries are bytes (below 256). -/
def bytesLt (l : List Nat) : Prop := ∀ b ∈ l, b < 256

/-- A well-formed 16-byte AES block. -/
def blockOk (b : List Nat) : Prop := b.length = 16 ∧ bytesLt b

/-- A well-formed expanded key: every round key is a 16-byte block. -/
def rksOk (rks : List (List Nat)) : Prop := ∀ rk ∈ rks, blockOk rk

instance (l : List Nat) : Decidable (bytesLt l) := by
  unfold bytesLt
  infer_instance

instance (b : List Nat) : Decidable (blockOk b) := by
  unfold blockOk
  infer_instance

instance (rks : List (List Nat)) : Decidable (rksOk rks) := by
  unfold rksOk
  infer_instance

/-- A validator whose only bucket is k same-time entries under the shared
    default key "unknown". -/
def bucketRep (k : Nat) (now : ℚ) : InputValidator :=
  ⟨[("unknown", List.replicate k now)]⟩

/-- Scenario for claim C1: two clients A and B both stream monitor 0
    (mss monitor 1), then A sends screen_share stop. -/
def c1Base : ServerState := ⟨["A", "B"], [], [], [], []⟩

def c1BothStreaming : ServerState :=
  screenShareStart (screenShareStart c1Base "A" [0]) "B" [0]

def c1AfterStopA : ServerState := screenShareStop c1BothStreaming "A" none

/-- Scenario for claim C1, disconnect path: A streams monitor 0 and then
    disconnects (handle_client finally-block cleanup). -/
def c1AfterDisconnectA : ServerState :=
  stopClientStreams (screenShareStart c1Base "A" [0]) "A"

/-- GF(2^8) addition (xor on Nat bytes) is associative and commutative;
    registered for ac_rfl. -/
instance : Std.Associative (α := Nat) (· ^^^ ·) := ⟨Nat.xor_assoc⟩

instance : Std.Commutative (α := Nat) (· ^^^ ·) := ⟨Nat.xor_comm⟩

/-! # Theorems -/

/-! ## Generic helper lemmas -/

theorem mem_insertIfAbsent_self {α : Type} [DecidableEq α] (l : List α)
    (a : α) : a ∈ insertIfAbsent l a := by
  unfold insertIfAbsent
  split
  · assumption
  · simp

theorem mem_insertIfAbsent_of_mem {α : Type} [DecidableEq α] {l : List α}
    {b : α} (a : α) (h : b ∈ l) : b ∈ insertIfAbsent l a := by
  unfold insertIfAbsent
  split
  · assumption
  · simp [h]

/-! ## C1 — screen producer lifetime -/

/-- C1 counterexample.  Claim C1 states that a MonitorCapture producer runs
    iff its active-reader count is positive, and that a stop or disconnect of
    one client never stops the producer of a monitor still read by another
    client.  In the reachable state where clients A and B both stream
    monitor 0 (mss monitor 1) and A sends screen_share stop, the push loop
    of B for monitor 1 is still registered but the producer of monitor 1 has
    been stopped; and after A starts a stream and disconnects, no reader is
    left yet the producer keeps running. -/
theorem screen_producer_reader_invariant_cex :
    ("B", (1 : Int)) ∈ c1AfterStopA.screenTasks ∧
    (1 : Int) ∉ c1AfterStopA.captures ∧
    c1AfterDisconnectA.screenTasks = [] ∧
    c1AfterDisconnectA.captures = [1] := by decide

/-- C1 (amended): screen_share stop with no display_index stops the producer
    of every monitor that client was reading, unconditionally — even when
    another client still reads it; and client-disconnect cleanup
    (_stop_client_streams) cancels the push loops of the client but leaves
    every producer running, so a producer can keep running with zero
    readers. -/
theorem screen_stop_and_disconnect_producer_fate :
    ∀ (s : ServerState) (cid : String) (m : Int),
      ((cid, m) ∈ s.screenTasks → m ∉ (screenShareStop s cid none).captures) ∧
      (stopClientStreams s cid).captures = s.captures := by
  intro s cid m
  refine ⟨fun hmem hin => ?_, rfl⟩
  simp only [screenShareStop, List.mem_filter] at hin
  obtain ⟨-, hnot⟩ := hin
  have hc : (s.screenTasks.filter (stopMatches cid none)).any
      (fun k => decide (k.2 = m)) = true := by
    refine List.any_eq_true.mpr ⟨(cid, m), List.mem_filter.mpr ⟨hmem, ?_⟩, by simp⟩
    simp [stopMatches]
  simp [hc] at hnot

/-- Witness for the C1 amended theorem at the concrete two-client state. -/
theorem screen_stop_and_disconnect_producer_fate_witness :
    ("A", (1 : Int)) ∈ c1BothStreaming.screenTasks ∧
    (1 : Int) ∉ (screenShareStop c1BothStreaming "A" none).captures :=
  ⟨by decide,
   (screen_stop_and_disconnect_producer_fate c1BothStreaming "A" 1).1 (by decide)⟩

/-! ## C7 — screen frame header -/

/-- C7: every binary frame a screen push loop emits for a client-requested
    0-based display index d ≥ 0 starts with the four ASCII bytes SCRN and
    carries d itself as its fifth byte (the internal 1-based index
    max(1, d+1) is mapped back via max(0, idx-1)). -/
theorem screen_frame_header_index :
    ∀ (d : Int) (jpeg f : List Nat), 0 ≤ d →
      screenPushFrame (mssIndex d) jpeg = some f →
      f.take 4 = SCREEN_HEADER ∧ f.get? 4 = some d.toNat := by
  intro d jpeg f hd hf
  have hm : mssIndex d = d + 1 := by
    unfold mssIndex
    omega
  rw [hm] at hf
  unfold screenPushFrame toBytes1 at hf
  have h1 : max 0 (d + 1 - 1) = d := by omega
  rw [h1] at hf
  by_cases hlt : d < 256
  · rw [if_pos ⟨hd, hlt⟩] at hf
    obtain rfl : SCREEN_HEADER ++ [d.toNat] ++ jpeg = f := Option.some.inj hf
    constructor
    · rfl
    · rfl
  · rw [if_neg (by omega)] at hf
    exact absurd hf (by simp)

/-- Witness for C7 at display index 3 with a one-byte payload. -/
theorem screen_frame_header_index_witness :
    ([83, 67, 82, 78, 3, 9] : List Nat).take 4 = SCREEN_HEADER ∧
    ([83, 67, 82, 78, 3, 9] : List Nat).get? 4 = some ((3 : Int)).toNat :=
  screen_frame_header_index 3 [9] [83, 67, 82, 78, 3, 9] (by decide) (by decide)

/-! ## C9 — out-of-range monitor fallback -/

/-- C9: a MonitorCapture whose 1-based monitor_index is at or beyond the
    length of the OS monitor list does not fail: it selects the fallback
    monitor (list entry 1, or entry 0 when the list has a single entry); and
    a client display index below 0 is clamped so it maps to internal
    monitor 1. -/
theorem capture_fallback_monitor :
    ∀ {α : Type} (monitors : List α) (idx d : Int),
      monitors ≠ [] → (monitors.length : Int) ≤ idx → d < 0 →
      selectCaptureMonitor monitors idx =
        (if monitors.length > 1 then monitors.get? 1 else monitors.get? 0) ∧
      (selectCaptureMonitor monitors idx).isSome = true ∧
      mssIndex d = 1 := by
  intro α monitors idx d hne hge hd
  have hsel : selectCaptureMonitor monitors idx =
      (if monitors.length > 1 then monitors.get? 1 else monitors.get? 0) := by
    unfold selectCaptureMonitor
    rw [if_pos (by omega)]
  refine ⟨hsel, ?_, by unfold mssIndex; omega⟩
  rw [hsel]
  match monitors, hne with
  | [x], _ => rfl
  | x :: y :: rest, _ => simp

/-- Witness for C9: a single-monitor list probed at index 5, and display
    index -1. -/
theorem capture_fallback_monitor_witness :
    selectCaptureMonitor ["m0"] 5 =
      (if (["m0"] : List String).length > 1 then (["m0"] : List String).get? 1
       else (["m0"] : List String).get? 0) ∧
    (selectCaptureMonitor ["m0"] 5).isSome = true ∧
    mssIndex (-1) = 1 :=
  capture_fallback_monitor ["m0"] 5 (-1) (by decide) (by decide) (by decide)

/-! ## C10 — media-state push loop lifecycle -/

/-- C10: the media push loop starts on the first media_control message of
    any action (and a later message of any action leaves it running), no
    screen_share stop touches it, it is cancelled in client-stream cleanup
    on disconnect, its period is 1.5 s, and its guard is membership in the
    client map. -/
theorem media_loop_lifecycle :
    ∀ (s : ServerState) (cid c2 action : String) (stopIdx : Option Int),
      cid ∈ (handleMediaControl s cid action).mediaTasks ∧
      (c2 ∈ s.mediaTasks → c2 ∈ (handleMediaControl s cid action).mediaTasks) ∧
      (screenShareStop s cid stopIdx).mediaTasks = s.mediaTasks ∧
      cid ∉ (stopClientStreams s cid).mediaTasks ∧
      mediaPushPeriod = 3 / 2 ∧
      (mediaLoopGuard s cid = true ↔ cid ∈ s.clients) := by
  intro s cid c2 action stopIdx
  refine ⟨mem_insertIfAbsent_self _ _,
          fun h => mem_insertIfAbsent_of_mem _ h, rfl, ?_, rfl, ?_⟩
  · intro hin
    simp only [stopClientStreams, List.mem_filter] at hin
    simp at hin
  · simp [mediaLoopGuard]

/-- Witness for C10 at the concrete base state. -/
theorem media_loop_lifecycle_witness :
    "A" ∈ (handleMediaControl c1Base "A" "volume_up").mediaTasks ∧
    "A" ∉ (stopClientStreams c1Base "A").mediaTasks :=
  ⟨(media_loop_lifecycle c1Base "A" "A" "volume_up" none).1,
   (media_loop_lifecycle c1Base "A" "A" "volume_up" none).2.2.2.1⟩

/-! ## C4 — approval policy -/

/-- C4 counterexample.  Claim C4 states that a device already in the trusted
    set gets approval synthesized immediately (no PendingApproval, no wait).
    With the approval policy on (require_approval = true) and device d1 in
    the trusted store, request_approval still publishes a pending approval
    and waits: the trusted set is not an input of the decision at all. -/
theorem trusted_device_approval_cex :
    lookupTrust [("d1", ⟨"Phone", 0, 0⟩)] "d1" = some ⟨"Phone", 0, 0⟩ ∧
    requestApproval ⟨true⟩ "d1" "Phone" = .pending ∧
    ¬ requestApproval ⟨true⟩ "d1" "Phone" = .immediate true := by decide

/-- C4 (amended): request_approval synthesizes an immediate approval iff the
    require_approval config flag is off; whenever it is on — trusted device
    or not — a PendingApproval entry is published and awaited. -/
theorem approval_requires_policy_only :
    ∀ (cfg : CMConfig) (did dn : String),
      (cfg.require_approval = false → requestApproval cfg did dn = .immediate true) ∧
      (cfg.require_approval = true → requestApproval cfg did dn = .pending) := by
  intro cfg did dn
  constructor <;> intro h <;> simp [requestApproval, h]

/-- Witness for the C4 amended theorem at both policy values. -/
theorem approval_requires_policy_only_witness :
    requestApproval ⟨false⟩ "d1" "Phone" = .immediate true ∧
    requestApproval ⟨true⟩ "d1" "Phone" = .pending :=
  ⟨(approval_requires_policy_only ⟨false⟩ "d1" "Phone").1 rfl,
   (approval_requires_policy_only ⟨true⟩ "d1" "Phone").2 rfl⟩

/-! ## C6 — handshake capabilities and the trusted store -/

/-- C6 counterexample.  Claim C6 states that after a previously unknown
    device completes the handshake with auto-approval, the trusted-device
    store contains an entry for its device_id.  Starting from an empty store
    with approval disabled, the handshake succeeds (auth_success with the
    eight capabilities) but the store stays empty: no code path calls
    add_trusted_device. -/
theorem trust_store_after_handshake_cex :
    handshake [] ⟨false⟩ "PC" ⟨some "d1", some "Phone"⟩ 0 false =
      (.auth_success "PC" getCapabilities, []) ∧
    lookupTrust [] "d1" = none := by decide

/-- C6 (amended): with approval disabled, a previously unknown device with
    nonempty identity fields receives auth_success whose capabilities object
    has exactly the eight boolean keys — but the trusted-device store is
    returned unchanged, so it still has no entry for that device. -/
theorem handshake_capabilities_and_trust :
    ∀ (T : List (String × TrustInfo)) (sn did dn : String) (now : ℚ)
      (pd : Bool),
      ¬ did = "" → ¬ dn = "" → lookupTrust T did = none →
      handshake T ⟨false⟩ sn ⟨some did, some dn⟩ now pd =
        (.auth_success sn getCapabilities, T) ∧
      getCapabilities.map Prod.fst =
        ["keyboard", "mouse", "gamepad", "screen_streaming",
         "camera_streaming", "file_transfer", "clipboard", "multi_display"] := by
  intro T sn did dn now pd hdid hdn hT
  refine ⟨?_, rfl⟩
  unfold handshake deviceValidate
  simp [pyTruthy, hdid, hdn, hT, requestApproval]

/-- Witness for the C6 amended theorem: empty store, device d1. -/
theorem handshake_capabilities_and_trust_witness :
    handshake [] ⟨false⟩ "PC" ⟨some "d1", some "Phone"⟩ 0 true =
      (.auth_success "PC" getCapabilities, []) ∧
    getCapabilities.map Prod.fst =
      ["keyboard", "mouse", "gamepad", "screen_streaming",
       "camera_streaming", "file_transfer", "clipboard", "multi_display"] :=
  handshake_capabilities_and_trust [] "PC" "d1" "Phone" 0 true
    (by decide) (by decide) rfl

/-! ## C3 — decryption failure handling -/

/-- C3 counterexample.  Claim C3 states that a text frame on which AES
    decryption fails is surfaced as plaintext to the consumer.  The payload
    "AAAA" (valid base64 of 3 bytes, not block aligned) makes decryption
    raise, and process_message drops the message: nothing is surfaced. -/
theorem decrypt_failure_plaintext_cex :
    decrypt [65, 65, 65, 65] = .error "ValueError: data not block aligned" ∧
    processRaw [65, 65, 65, 65] = .droppedDecryptError ∧
    ¬ processRaw [65, 65, 65, 65] = .dispatched [65, 65, 65, 65] :=
  ⟨rfl, by decide, by decide⟩

/-- C3 (amended): MessageEncryption.decrypt re-raises on failure, and
    process_message catches the exception and drops the message (log only —
    nothing dispatched, no plaintext surfaced).  The intentionally plaintext
    handshake is accepted elsewhere: handle_client tries plain JSON parsing
    of the first frame before any decryption. -/
theorem decrypt_failure_drops_message :
    ∀ (payload : List Nat) (e : String),
      decrypt payload = .error e →
      processRaw payload = .droppedDecryptError := by
  intro payload e h
  unfold processRaw
  rw [h]

/-- Witness for the C3 amended theorem at the payload "AAAA". -/
theorem decrypt_failure_drops_message_witness :
    processRaw [65, 65, 65, 65] = .droppedDecryptError :=
  decrypt_failure_drops_message [65, 65, 65, 65]
    "ValueError: data not block aligned" rfl

/-! ## C8 — settings clamping -/

/-- C8: set_fps stores a value clamped to [1,60] and set_quality one clamped
    to [1,100], both on the global defaults and on every active
    MonitorCapture; set_resolution with an unknown preset string is rejected
    and the object (hence the stored resolution) is unchanged. -/
theorem capture_settings_clamped :
    ∀ (m : MultiScreenCapture) (f q : Int) (r : String),
      ((m.set_fps f).fps = max 1 (min 60 f) ∧
        1 ≤ (m.set_fps f).fps ∧ (m.set_fps f).fps ≤ 60 ∧
        ∀ kc ∈ (m.set_fps f).captures, kc.2.fps = max 1 (min 60 f)) ∧
      ((m.set_quality q).quality = max 1 (min 100 q) ∧
        1 ≤ (m.set_quality q).quality ∧ (m.set_quality q).quality ≤ 100 ∧
        ∀ kc ∈ (m.set_quality q).captures, kc.2.quality = max 1 (min 100 q)) ∧
      (¬ r ∈ RESOLUTION_PRESET_KEYS → m.set_resolution r = m) := by
  intro m f q r
  refine ⟨⟨rfl, by simp only [MultiScreenCapture.set_fps]; omega,
           by simp only [MultiScreenCapture.set_fps]; omega, ?_⟩,
          ⟨rfl, by simp only [MultiScreenCapture.set_quality]; omega,
           by simp only [MultiScreenCapture.set_quality]; omega, ?_⟩, ?_⟩
  · intro kc hkc
    simp only [MultiScreenCapture.set_fps, List.mem_map] at hkc
    obtain ⟨a, -, rfl⟩ := hkc
    simp only [MonitorCapture.set_fps]
    omega
  · intro kc hkc
    simp only [MultiScreenCapture.set_quality, List.mem_map] at hkc
    obtain ⟨a, -, rfl⟩ := hkc
    simp only [MonitorCapture.set_quality]
    omega
  · intro hr
    unfold MultiScreenCapture.set_resolution
    rw [if_neg hr]

/-- Witness for C8 at concrete values 200 fps, 150 quality, preset "4k". -/
theorem capture_settings_clamped_witness :
    ¬ "4k" ∈ RESOLUTION_PRESET_KEYS ∧
    MultiScreenCapture.set_resolution ⟨30, 70, "native", 1, []⟩ "4k" =
      ⟨30, 70, "native", 1, []⟩ :=
  ⟨by decide,
   (capture_settings_clamped ⟨30, 70, "native", 1, []⟩ 200 150 "4k").2.2
     (by decide)⟩

/-! ## C2 — rate limiting -/

theorem lookupBucket_rep (now : ℚ) (k : Nat) :
    lookupBucket (bucketRep k now).rate_limits "unknown" =
      List.replicate k now := by
  simp [bucketRep, lookupBucket]

theorem filter_window_rep (now : ℚ) (k : Nat) :
    (List.replicate k now).filter (fun t => decide (now - t < 1)) =
      List.replicate k now := by
  apply List.filter_eq_self.mpr
  intro a ha
  rw [List.eq_of_mem_replicate ha]
  simp

/-- One keyboard message against a full shared bucket is rejected and the
    bucket stays full. -/
theorem validate_kb_full (now : ℚ) (k : Nat) (hk : max_rate ≤ k) :
    (bucketRep k now).validate now kbMsg = (false, bucketRep k now) := by
  unfold InputValidator.validate
  rw [if_neg (by decide)]
  simp only [kbMsg, Option.getD, lookupBucket_rep, filter_window_rep,
    List.length_replicate]
  rw [if_pos hk]
  simp [bucketRep, setBucket]

/-- One keyboard message against a not-yet-full shared bucket is accepted
    and one timestamp is appended. -/
theorem validate_kb_notfull (now : ℚ) (k : Nat) (hk : k < max_rate) :
    (bucketRep k now).validate now kbMsg = (true, bucketRep (k + 1) now) := by
  unfold InputValidator.validate
  rw [if_neg (by decide)]
  simp only [kbMsg, Option.getD, lookupBucket_rep, filter_window_rep,
    List.length_replicate]
  rw [if_neg (by omega)]
  rw [Prod.mk.injEq]
  refine ⟨by decide, ?_⟩
  simp [bucketRep, setBucket, List.replicate_succ']

/-- The very first keyboard message creates the "unknown" bucket. -/
theorem validate_kb_empty (now : ℚ) :
    emptyValidator.validate now kbMsg = (true, bucketRep 1 now) := by
  unfold InputValidator.validate
  rw [if_neg (by decide)]
  simp only [kbMsg, Option.getD, emptyValidator, lookupBucket,
    List.filter_nil, List.length_nil]
  rw [if_neg (by decide)]
  rw [Prod.mk.injEq]
  refine ⟨by decide, ?_⟩
  simp [bucketRep, setBucket]

theorem processDecoded_kb_notfull (now : ℚ) (sid : String) (k : Nat)
    (hk : k < max_rate) :
    processDecoded (bucketRep k now) now sid kbMsg =
      ({ processed := true, response := none }, bucketRep (k + 1) now) := by
  unfold processDecoded
  rw [validate_kb_notfull now k hk]
  rfl

theorem processDecoded_kb_full (now : ℚ) (sid : String) (k : Nat)
    (hk : max_rate ≤ k) :
    processDecoded (bucketRep k now) now sid kbMsg =
      ({ processed := false, response := none }, bucketRep k now) := by
  unfold processDecoded
  rw [validate_kb_full now k hk]
  rfl

theorem processDecoded_kb_empty (now : ℚ) (sid : String) :
    processDecoded emptyValidator now sid kbMsg =
      ({ processed := true, response := none }, bucketRep 1 now) := by
  unfold processDecoded
  rw [validate_kb_empty now]
  rfl

theorem runSession_cons (v : InputValidator) (now : ℚ) (sid : String)
    (m : InMsg) (ms : List InMsg) :
    runSession v now sid (m :: ms) =
      ((if (processDecoded v now sid m).1.processed then 1 else 0) +
         (runSession (processDecoded v now sid m).2 now sid ms).1,
       (runSession (processDecoded v now sid m).2 now sid ms).2) := rfl

theorem runSession_cons_acc (v v' : InputValidator) (now : ℚ) (sid : String)
    (m : InMsg) (ms : List InMsg) (r : Option String)
    (h : processDecoded v now sid m = ({ processed := true, response := r }, v')) :
    runSession v now sid (m :: ms) =
      (1 + (runSession v' now sid ms).1, (runSession v' now sid ms).2) := by
  rw [runSession_cons, h]
  rfl

theorem runSession_cons_drop (v v' : InputValidator) (now : ℚ) (sid : String)
    (m : InMsg) (ms : List InMsg) (r : Option String)
    (h : processDecoded v now sid m = ({ processed := false, response := r }, v')) :
    runSession v now sid (m :: ms) =
      (0 + (runSession v' now sid ms).1, (runSession v' now sid ms).2) := by
  rw [runSession_cons, h]
  rfl

/-- Running n same-second keyboard messages against a bucket holding k
    entries accepts exactly min n (1000 - k) of them. -/
theorem runSession_rep (now : ℚ) (sid : String) :
    ∀ (n k : Nat), k ≤ max_rate →
      runSession (bucketRep k now) now sid (List.replicate n kbMsg) =
        (min n (max_rate - k), bucketRep (min (k + n) max_rate) now) := by
  intro n
  induction n with
  | zero =>
      intro k hk
      simp only [List.replicate_zero, runSession]
      rw [Prod.mk.injEq]
      refine ⟨(Nat.zero_min _).symm, ?_⟩
      rw [Nat.add_zero, Nat.min_eq_left hk]
  | succ n ih =>
      intro k hk
      rw [List.replicate_succ]
      by_cases hfull : k < max_rate
      · rw [runSession_cons_acc (bucketRep k now) (bucketRep (k + 1) now)
          now sid kbMsg _ none (processDecoded_kb_notfull now sid k hfull)]
        rw [ih (k + 1) (by omega)]
        rw [show k + 1 + n = k + (n + 1) from by omega]
        rw [Prod.mk.injEq]
        refine ⟨?_, rfl⟩
        rw [show max_rate - k = (max_rate - (k + 1)) + 1 from by omega,
          Nat.succ_min_succ, Nat.add_comm]
      · have hk' : k = max_rate := by omega
        subst hk'
        rw [runSession_cons_drop (bucketRep max_rate now) (bucketRep max_rate now)
          now sid kbMsg _ none (processDecoded_kb_full now sid max_rate (le_refl _))]
        rw [ih max_rate (le_refl _)]
        rw [Prod.mk.injEq]
        constructor
        · rw [Nat.sub_self, Nat.min_zero, Nat.min_zero]
          rfl
        · rw [Nat.min_eq_right (Nat.le_add_right _ _),
            Nat.min_eq_right (Nat.le_add_right _ _)]

/-- C2 counterexample.  Claim C2 states that distinct sessions do not share
    a rate budget.  The limiter is keyed by the client_id FIELD of the
    message (defaulting to "unknown"), which keyboard messages do not carry:
    after session A sends 1000 keyboard messages within one second (all
    accepted), the very first message of the distinct session B in the same
    second is dropped. -/
theorem rate_limit_per_session_cex :
    ¬ "sessionA" = "sessionB" ∧
    (runSession emptyValidator 0 "sessionA" (List.replicate 1000 kbMsg)).1 =
      1000 ∧
    (processDecoded
        (runSession emptyValidator 0 "sessionA" (List.replicate 1000 kbMsg)).2
        0 "sessionB" kbMsg).1.processed = false := by
  have hrun : runSession emptyValidator 0 "sessionA"
      (List.replicate 1000 kbMsg) = (1000, bucketRep 1000 0) := by
    rw [show (1000 : Nat) = 999 + 1 from rfl, List.replicate_succ]
    rw [runSession_cons_acc emptyValidator (bucketRep 1 0) 0 "sessionA"
      kbMsg _ none (processDecoded_kb_empty 0 "sessionA")]
    rw [runSession_rep 0 "sessionA" 999 1 (by decide)]
    rw [Prod.mk.injEq]
    refine ⟨by decide, ?_⟩
    congr 1
  refine ⟨by decide, ?_, ?_⟩
  · rw [hrun]
  · rw [hrun, processDecoded_kb_full 0 "sessionB" 1000 (by decide)]

/-- C2 (amended): rate limiting is keyed by the optional client_id field of
    the message itself (default "unknown"), not by the server session.
    Within one key, at most 1000 messages are accepted per sliding second:
    1200 same-second keyboard messages yield exactly 1000 processed and 200
    silently dropped (no response), and the session id passed to
    process_message has no influence on the decision. -/
theorem rate_limit_keyed_by_message_field :
    ∀ (now : ℚ),
      (runSession emptyValidator now "sessionA"
          (List.replicate 1200 kbMsg)).1 = 1000 ∧
      (∀ (v : InputValidator) (sid sid2 : String) (m : InMsg),
        processDecoded v now sid m = processDecoded v now sid2 m) ∧
      (∀ (v : InputValidator) (sid : String) (m : InMsg),
        (processDecoded v now sid m).1.processed = false →
        (processDecoded v now sid m).1.response = none) := by
  intro now
  refine ⟨?_, fun v sid sid2 m => rfl, fun v sid m h => ?_⟩
  · rw [show (1200 : Nat) = 1199 + 1 from rfl, List.replicate_succ]
    rw [runSession_cons_acc emptyValidator (bucketRep 1 now) now "sessionA"
      kbMsg _ none (processDecoded_kb_empty now "sessionA")]
    rw [runSession_rep now "sessionA" 1199 1 (by decide)]
    show 1 + min 1199 (max_rate - 1) = 1000
    decide
  · unfold processDecoded at h ⊢
    by_cases hr : (v.validate now m).1
    · rw [if_pos hr] at h
      exact absurd h (by simp)
    · rw [if_neg hr]



/-! ## C5 — crypto stage A: bytes, xor, xtime -/

theorem xor_lt256 {a b : Nat} (ha : a < 256) (hb : b < 256) : a ^^^ b < 256 := by
  have := Nat.xor_lt_two_pow (n := 8) ha hb
  simpa using this

theorem xtime_lt : ∀ x, x < 256 → xtime x < 256 := by decide

/-- Doubling distributes over xor (a left shift touches every bit alike). -/
theorem two_mul_xor (x y : Nat) : 2 * (x ^^^ y) = 2 * x ^^^ 2 * y := by
  apply Nat.eq_of_testBit_eq
  intro i
  cases i with
  | zero =>
      rw [Nat.testBit_xor, Nat.testBit_zero, Nat.testBit_zero, Nat.testBit_zero]
      simp [Nat.mul_mod_right]
  | succ i =>
      rw [Nat.testBit_xor, Nat.testBit_add_one, Nat.testBit_add_one,
        Nat.testBit_add_one, Nat.mul_div_cancel_left x (by omega),
        Nat.mul_div_cancel_left y (by omega),
        Nat.mul_div_cancel_left (x ^^^ y) (by omega), Nat.testBit_xor]

theorem xor_128_eq_add : ∀ a, a < 128 → 128 ^^^ a = 128 + a := by decide

theorem high_byte_split {x : Nat} (h1 : 128 ≤ x) (h2 : x < 256) :
    x = 128 ^^^ (x - 128) := by
  rw [xor_128_eq_add (x - 128) (by omega)]
  omega

theorem xor_high_high {x y : Nat} (hx1 : 128 ≤ x) (hx2 : x < 256)
    (hy1 : 128 ≤ y) (hy2 : y < 256) : x ^^^ y < 128 := by
  rw [high_byte_split hx1 hx2, high_byte_split hy1 hy2]
  have h : (128 ^^^ (x - 128)) ^^^ (128 ^^^ (y - 128)) =
      (x - 128) ^^^ (y - 128) := by
    calc (128 ^^^ (x - 128)) ^^^ (128 ^^^ (y - 128)) =
        (128 ^^^ 128) ^^^ ((x - 128) ^^^ (y - 128)) := by ac_rfl
      _ = (x - 128) ^^^ (y - 128) := by rw [Nat.xor_self, Nat.zero_xor]
  rw [h]
  have := Nat.xor_lt_two_pow (n := 7) (by omega : x - 128 < 2 ^ 7)
    (by omega : y - 128 < 2 ^ 7)
  simpa using this

theorem xor_low_high {x y : Nat} (hx : x < 128) (hy1 : 128 ≤ y)
    (hy2 : y < 256) : 128 ≤ x ^^^ y := by
  rw [high_byte_split hy1 hy2]
  have h : x ^^^ (128 ^^^ (y - 128)) = 128 ^^^ (x ^^^ (y - 128)) := by ac_rfl
  rw [h, xor_128_eq_add _ (by
    have := Nat.xor_lt_two_pow (n := 7) (by omega : x < 2 ^ 7)
      (by omega : y - 128 < 2 ^ 7)
    simpa using this)]
  omega

/-- Additivity of multiplication by x over GF(2^8) addition (xor): the four
    cases of the two reduction branches. -/
theorem xtime_linear : ∀ x, x < 256 → ∀ y, y < 256 →
    xtime (x ^^^ y) = xtime x ^^^ xtime y := by
  intro x hx y hy
  unfold xtime
  by_cases hx128 : x < 128
  · by_cases hy128 : y < 128
    · have hxy : x ^^^ y < 128 := by
        have := Nat.xor_lt_two_pow (n := 7) (by omega : x < 2 ^ 7)
          (by omega : y < 2 ^ 7)
        simpa using this
      rw [if_pos hxy, if_pos hx128, if_pos hy128, two_mul_xor]
    · have hxy : ¬ x ^^^ y < 128 := by
        have := xor_low_high hx128 (by omega) hy
        omega
      rw [if_neg hxy, if_pos hx128, if_neg hy128, two_mul_xor]
      ac_rfl
  · by_cases hy128 : y < 128
    · have hxy : ¬ x ^^^ y < 128 := by
        have h1 : 128 ≤ y ^^^ x := xor_low_high hy128 (by omega) hx
        rw [Nat.xor_comm] at h1
        omega
      rw [if_neg hxy, if_neg hx128, if_pos hy128, two_mul_xor]
      ac_rfl
    · have hxy : x ^^^ y < 128 := xor_high_high (by omega) hx (by omega) hy
      rw [if_pos hxy, if_neg hx128, if_neg hy128, two_mul_xor]
      have h : (2 * x ^^^ 283) ^^^ (2 * y ^^^ 283) =
          (2 * x ^^^ 2 * y) ^^^ (283 ^^^ 283) := by ac_rfl
      rw [h, Nat.xor_self, Nat.xor_zero]

theorem sbox_lt : ∀ x, x < 256 → sbox x < 256 := by decide

theorem invSbox_sbox : ∀ x, x < 256 → invSbox (sbox x) = x := by decide

theorem g2_lt {x : Nat} (h : x < 256) : g2 x < 256 := xtime_lt x h
theorem g3_lt {x : Nat} (h : x < 256) : g3 x < 256 := xor_lt256 (xtime_lt x h) h
theorem g9_lt {x : Nat} (h : x < 256) : g9 x < 256 :=
  xor_lt256 (xtime_lt _ (xtime_lt _ (xtime_lt _ h))) h
theorem g11_lt {x : Nat} (h : x < 256) : g11 x < 256 :=
  xor_lt256 (xor_lt256 (xtime_lt _ (xtime_lt _ (xtime_lt _ h))) (xtime_lt _ h)) h
theorem g13_lt {x : Nat} (h : x < 256) : g13 x < 256 :=
  xor_lt256 (xor_lt256 (xtime_lt _ (xtime_lt _ (xtime_lt _ h)))
    (xtime_lt _ (xtime_lt _ h))) h
theorem g14_lt {x : Nat} (h : x < 256) : g14 x < 256 :=
  xor_lt256 (xor_lt256 (xtime_lt _ (xtime_lt _ (xtime_lt _ h)))
    (xtime_lt _ (xtime_lt _ h))) (xtime_lt _ h)

theorem xtime2_linear {x y : Nat} (hx : x < 256) (hy : y < 256) :
    xtime (xtime (x ^^^ y)) = xtime (xtime x) ^^^ xtime (xtime y) := by
  rw [xtime_linear x hx y hy, xtime_linear _ (xtime_lt x hx) _ (xtime_lt y hy)]

theorem xtime3_linear {x y : Nat} (hx : x < 256) (hy : y < 256) :
    xtime (xtime (xtime (x ^^^ y))) =
      xtime (xtime (xtime x)) ^^^ xtime (xtime (xtime y)) := by
  rw [xtime2_linear hx hy,
    xtime_linear _ (xtime_lt _ (xtime_lt x hx)) _ (xtime_lt _ (xtime_lt y hy))]

theorem g9_linear {x y : Nat} (hx : x < 256) (hy : y < 256) :
    g9 (x ^^^ y) = g9 x ^^^ g9 y := by
  unfold g9
  rw [xtime3_linear hx hy]
  ac_rfl

theorem g11_linear {x y : Nat} (hx : x < 256) (hy : y < 256) :
    g11 (x ^^^ y) = g11 x ^^^ g11 y := by
  unfold g11
  rw [xtime3_linear hx hy, xtime_linear x hx y hy]
  ac_rfl

theorem g13_linear {x y : Nat} (hx : x < 256) (hy : y < 256) :
    g13 (x ^^^ y) = g13 x ^^^ g13 y := by
  unfold g13
  rw [xtime3_linear hx hy, xtime2_linear hx hy]
  ac_rfl

theorem g14_linear {x y : Nat} (hx : x < 256) (hy : y < 256) :
    g14 (x ^^^ y) = g14 x ^^^ g14 y := by
  unfold g14
  rw [xtime3_linear hx hy, xtime2_linear hx hy, xtime_linear x hx y hy]
  ac_rfl

section linear4
variable {a b c d : Nat}

theorem g9_linear4 (ha : a < 256) (hb : b < 256) (hc : c < 256) (hd : d < 256) :
    g9 (a ^^^ b ^^^ c ^^^ d) = g9 a ^^^ g9 b ^^^ g9 c ^^^ g9 d := by
  rw [g9_linear (xor_lt256 (xor_lt256 ha hb) hc) hd,
    g9_linear (xor_lt256 ha hb) hc, g9_linear ha hb]

theorem g11_linear4 (ha : a < 256) (hb : b < 256) (hc : c < 256) (hd : d < 256) :
    g11 (a ^^^ b ^^^ c ^^^ d) = g11 a ^^^ g11 b ^^^ g11 c ^^^ g11 d := by
  rw [g11_linear (xor_lt256 (xor_lt256 ha hb) hc) hd,
    g11_linear (xor_lt256 ha hb) hc, g11_linear ha hb]

theorem g13_linear4 (ha : a < 256) (hb : b < 256) (hc : c < 256) (hd : d < 256) :
    g13 (a ^^^ b ^^^ c ^^^ d) = g13 a ^^^ g13 b ^^^ g13 c ^^^ g13 d := by
  rw [g13_linear (xor_lt256 (xor_lt256 ha hb) hc) hd,
    g13_linear (xor_lt256 ha hb) hc, g13_linear ha hb]

theorem g14_linear4 (ha : a < 256) (hb : b < 256) (hc : c < 256) (hd : d < 256) :
    g14 (a ^^^ b ^^^ c ^^^ d) = g14 a ^^^ g14 b ^^^ g14 c ^^^ g14 d := by
  rw [g14_linear (xor_lt256 (xor_lt256 ha hb) hc) hd,
    g14_linear (xor_lt256 ha hb) hc, g14_linear ha hb]

end linear4

/-- The four GF(2^8) coefficient identities behind InvMixColumns ∘
    MixColumns = id (rows of the inverse matrix times columns of the
    forward matrix). -/
theorem mixK1 : ∀ x, x < 256 →
    g14 (g2 x) ^^^ g11 x ^^^ g13 x ^^^ g9 (g3 x) = x := by decide

theorem mixK2 : ∀ x, x < 256 →
    g14 (g3 x) ^^^ g11 (g2 x) ^^^ g13 x ^^^ g9 x = 0 := by decide

theorem mixK3 : ∀ x, x < 256 →
    g14 x ^^^ g11 (g3 x) ^^^ g13 (g2 x) ^^^ g9 x = 0 := by decide

theorem mixK4 : ∀ x, x < 256 →
    g14 x ^^^ g11 x ^^^ g13 (g3 x) ^^^ g9 (g2 x) = 0 := by decide

/-! ## C5 — crypto stage B: MixColumns inversion -/

section mixInv
variable {a b c d : Nat}

theorem mixInv0 (ha : a < 256) (hb : b < 256) (hc : c < 256) (hd : d < 256) :
    g14 (g2 a ^^^ g3 b ^^^ c ^^^ d) ^^^ g11 (a ^^^ g2 b ^^^ g3 c ^^^ d) ^^^
      g13 (a ^^^ b ^^^ g2 c ^^^ g3 d) ^^^ g9 (g3 a ^^^ b ^^^ c ^^^ g2 d) = a := by
  rw [g14_linear4 (g2_lt ha) (g3_lt hb) hc hd,
    g11_linear4 ha (g2_lt hb) (g3_lt hc) hd,
    g13_linear4 ha hb (g2_lt hc) (g3_lt hd),
    g9_linear4 (g3_lt ha) hb hc (g2_lt hd)]
  calc (g14 (g2 a) ^^^ g14 (g3 b) ^^^ g14 c ^^^ g14 d) ^^^
        (g11 a ^^^ g11 (g2 b) ^^^ g11 (g3 c) ^^^ g11 d) ^^^
        (g13 a ^^^ g13 b ^^^ g13 (g2 c) ^^^ g13 (g3 d)) ^^^
        (g9 (g3 a) ^^^ g9 b ^^^ g9 c ^^^ g9 (g2 d)) =
      (g14 (g2 a) ^^^ g11 a ^^^ g13 a ^^^ g9 (g3 a)) ^^^
        (g14 (g3 b) ^^^ g11 (g2 b) ^^^ g13 b ^^^ g9 b) ^^^
        (g14 c ^^^ g11 (g3 c) ^^^ g13 (g2 c) ^^^ g9 c) ^^^
        (g14 d ^^^ g11 d ^^^ g13 (g3 d) ^^^ g9 (g2 d)) := by ac_rfl
    _ = a := by rw [mixK1 a ha, mixK2 b hb, mixK3 c hc, mixK4 d hd]; simp

theorem mixInv1 (ha : a < 256) (hb : b < 256) (hc : c < 256) (hd : d < 256) :
    g9 (g2 a ^^^ g3 b ^^^ c ^^^ d) ^^^ g14 (a ^^^ g2 b ^^^ g3 c ^^^ d) ^^^
      g11 (a ^^^ b ^^^ g2 c ^^^ g3 d) ^^^ g13 (g3 a ^^^ b ^^^ c ^^^ g2 d) = b := by
  rw [g9_linear4 (g2_lt ha) (g3_lt hb) hc hd,
    g14_linear4 ha (g2_lt hb) (g3_lt hc) hd,
    g11_linear4 ha hb (g2_lt hc) (g3_lt hd),
    g13_linear4 (g3_lt ha) hb hc (g2_lt hd)]
  calc (g9 (g2 a) ^^^ g9 (g3 b) ^^^ g9 c ^^^ g9 d) ^^^
        (g14 a ^^^ g14 (g2 b) ^^^ g14 (g3 c) ^^^ g14 d) ^^^
        (g11 a ^^^ g11 b ^^^ g11 (g2 c) ^^^ g11 (g3 d)) ^^^
        (g13 (g3 a) ^^^ g13 b ^^^ g13 c ^^^ g13 (g2 d)) =
      (g14 a ^^^ g11 a ^^^ g13 (g3 a) ^^^ g9 (g2 a)) ^^^
        (g14 (g2 b) ^^^ g11 b ^^^ g13 b ^^^ g9 (g3 b)) ^^^
        (g14 (g3 c) ^^^ g11 (g2 c) ^^^ g13 c ^^^ g9 c) ^^^
        (g14 d ^^^ g11 (g3 d) ^^^ g13 (g2 d) ^^^ g9 d) := by ac_rfl
    _ = b := by rw [mixK4 a ha, mixK1 b hb, mixK2 c hc, mixK3 d hd]; simp

theorem mixInv2 (ha : a < 256) (hb : b < 256) (hc : c < 256) (hd : d < 256) :
    g13 (g2 a ^^^ g3 b ^^^ c ^^^ d) ^^^ g9 (a ^^^ g2 b ^^^ g3 c ^^^ d) ^^^
      g14 (a ^^^ b ^^^ g2 c ^^^ g3 d) ^^^ g11 (g3 a ^^^ b ^^^ c ^^^ g2 d) = c := by
  rw [g13_linear4 (g2_lt ha) (g3_lt hb) hc hd,
    g9_linear4 ha (g2_lt hb) (g3_lt hc) hd,
    g14_linear4 ha hb (g2_lt hc) (g3_lt hd),
    g11_linear4 (g3_lt ha) hb hc (g2_lt hd)]
  calc (g13 (g2 a) ^^^ g13 (g3 b) ^^^ g13 c ^^^ g13 d) ^^^
        (g9 a ^^^ g9 (g2 b) ^^^ g9 (g3 c) ^^^ g9 d) ^^^
        (g14 a ^^^ g14 b ^^^ g14 (g2 c) ^^^ g14 (g3 d)) ^^^
        (g11 (g3 a) ^^^ g11 b ^^^ g11 c ^^^ g11 (g2 d)) =
      (g14 a ^^^ g11 (g3 a) ^^^ g13 (g2 a) ^^^ g9 a) ^^^
        (g14 b ^^^ g11 b ^^^ g13 (g3 b) ^^^ g9 (g2 b)) ^^^
        (g14 (g2 c) ^^^ g11 c ^^^ g13 c ^^^ g9 (g3 c)) ^^^
        (g14 (g3 d) ^^^ g11 (g2 d) ^^^ g13 d ^^^ g9 d) := by ac_rfl
    _ = c := by rw [mixK3 a ha, mixK4 b hb, mixK1 c hc, mixK2 d hd]; simp

theorem mixInv3 (ha : a < 256) (hb : b < 256) (hc : c < 256) (hd : d < 256) :
    g11 (g2 a ^^^ g3 b ^^^ c ^^^ d) ^^^ g13 (a ^^^ g2 b ^^^ g3 c ^^^ d) ^^^
      g9 (a ^^^ b ^^^ g2 c ^^^ g3 d) ^^^ g14 (g3 a ^^^ b ^^^ c ^^^ g2 d) = d := by
  rw [g11_linear4 (g2_lt ha) (g3_lt hb) hc hd,
    g13_linear4 ha (g2_lt hb) (g3_lt hc) hd,
    g9_linear4 ha hb (g2_lt hc) (g3_lt hd),
    g14_linear4 (g3_lt ha) hb hc (g2_lt hd)]
  calc (g11 (g2 a) ^^^ g11 (g3 b) ^^^ g11 c ^^^ g11 d) ^^^
        (g13 a ^^^ g13 (g2 b) ^^^ g13 (g3 c) ^^^ g13 d) ^^^
        (g9 a ^^^ g9 b ^^^ g9 (g2 c) ^^^ g9 (g3 d)) ^^^
        (g14 (g3 a) ^^^ g14 b ^^^ g14 c ^^^ g14 (g2 d)) =
      (g14 (g3 a) ^^^ g11 (g2 a) ^^^ g13 a ^^^ g9 a) ^^^
        (g14 b ^^^ g11 (g3 b) ^^^ g13 (g2 b) ^^^ g9 b) ^^^
        (g14 c ^^^ g11 c ^^^ g13 (g3 c) ^^^ g9 (g2 c)) ^^^
        (g14 (g2 d) ^^^ g11 d ^^^ g13 d ^^^ g9 (g3 d)) := by ac_rfl
    _ = d := by rw [mixK2 a ha, mixK3 b hb, mixK4 c hc, mixK1 d hd]; simp

/-- Inverting one MixColumns column recovers the column. -/
theorem invMixCol_mixCol (ha : a < 256) (hb : b < 256) (hc : c < 256)
    (hd : d < 256) :
    invMixCol (g2 a ^^^ g3 b ^^^ c ^^^ d) (a ^^^ g2 b ^^^ g3 c ^^^ d)
      (a ^^^ b ^^^ g2 c ^^^ g3 d) (g3 a ^^^ b ^^^ c ^^^ g2 d) = [a, b, c, d] := by
  unfold invMixCol
  rw [mixInv0 ha hb hc hd, mixInv1 ha hb hc hd, mixInv2 ha hb hc hd,
    mixInv3 ha hb hc hd]

end mixInv
theorem list_eq_16 (l : List Nat) (h : l.length = 16) :
    ∃ a0 a1 a2 a3 a4 a5 a6 a7 a8 a9 a10 a11 a12 a13 a14 a15,
      l = [a0, a1, a2, a3, a4, a5, a6, a7, a8, a9, a10, a11, a12, a13, a14, a15] := by
  obtain ⟨a0, l, rfl⟩ := List.exists_of_length_succ (n := 15) l (by omega)
  simp only [List.length_cons] at h
  obtain ⟨a1, l, rfl⟩ := List.exists_of_length_succ (n := 14) l (by omega)
  simp only [List.length_cons] at h
  obtain ⟨a2, l, rfl⟩ := List.exists_of_length_succ (n := 13) l (by omega)
  simp only [List.length_cons] at h
  obtain ⟨a3, l, rfl⟩ := List.exists_of_length_succ (n := 12) l (by omega)
  simp only [List.length_cons] at h
  obtain ⟨a4, l, rfl⟩ := List.exists_of_length_succ (n := 11) l (by omega)
  simp only [List.length_cons] at h
  obtain ⟨a5, l, rfl⟩ := List.exists_of_length_succ (n := 10) l (by omega)
  simp only [List.length_cons] at h
  obtain ⟨a6, l, rfl⟩ := List.exists_of_length_succ (n := 9) l (by omega)
  simp only [List.length_cons] at h
  obtain ⟨a7, l, rfl⟩ := List.exists_of_length_succ (n := 8) l (by omega)
  simp only [List.length_cons] at h
  obtain ⟨a8, l, rfl⟩ := List.exists_of_length_succ (n := 7) l (by omega)
  simp only [List.length_cons] at h
  obtain ⟨a9, l, rfl⟩ := List.exists_of_length_succ (n := 6) l (by omega)
  simp only [List.length_cons] at h
  obtain ⟨a10, l, rfl⟩ := List.exists_of_length_succ (n := 5) l (by omega)
  simp only [List.length_cons] at h
  obtain ⟨a11, l, rfl⟩ := List.exists_of_length_succ (n := 4) l (by omega)
  simp only [List.length_cons] at h
  obtain ⟨a12, l, rfl⟩ := List.exists_of_length_succ (n := 3) l (by omega)
  simp only [List.length_cons] at h
  obtain ⟨a13, l, rfl⟩ := List.exists_of_length_succ (n := 2) l (by omega)
  simp only [List.length_cons] at h
  obtain ⟨a14, l, rfl⟩ := List.exists_of_length_succ (n := 1) l (by omega)
  simp only [List.length_cons] at h
  obtain ⟨a15, l, rfl⟩ := List.exists_of_length_succ (n := 0) l (by omega)
  simp only [List.length_cons] at h
  have : l = [] := List.eq_nil_of_length_eq_zero (by omega)
  subst this
  exact ⟨a0, a1, a2, a3, a4, a5, a6, a7, a8, a9, a10, a11, a12, a13, a14, a15, rfl⟩

/-! ## C5 — crypto stage C: block operations -/

theorem invShiftRows_shiftRows (l : List Nat) (h : l.length = 16) :
    invShiftRows (shiftRows l) = l := by
  obtain ⟨a0, a1, a2, a3, a4, a5, a6, a7, a8, a9, a10, a11, a12, a13, a14, a15,
    rfl⟩ := list_eq_16 l h
  rfl

theorem shiftRows_length (l : List Nat) (h : l.length = 16) :
    (shiftRows l).length = 16 := by
  obtain ⟨a0, a1, a2, a3, a4, a5, a6, a7, a8, a9, a10, a11, a12, a13, a14, a15,
    rfl⟩ := list_eq_16 l h
  rfl

theorem shiftRows_bytesLt (l : List Nat) (h : l.length = 16)
    (hlt : bytesLt l) : bytesLt (shiftRows l) := by
  obtain ⟨a0, a1, a2, a3, a4, a5, a6, a7, a8, a9, a10, a11, a12, a13, a14, a15,
    rfl⟩ := list_eq_16 l h
  intro x hx
  simp only [shiftRows, List.mem_cons, List.not_mem_nil, or_false] at hx
  rcases hx with rfl | rfl | rfl | rfl | rfl | rfl | rfl | rfl | rfl | rfl |
    rfl | rfl | rfl | rfl | rfl | rfl <;>
    exact hlt _ (by simp)

theorem subBytes_length (l : List Nat) : (subBytes l).length = l.length :=
  List.length_map l sbox

theorem subBytes_bytesLt (l : List Nat) (hlt : bytesLt l) :
    bytesLt (subBytes l) := by
  intro x hx
  obtain ⟨y, hy, rfl⟩ := List.mem_map.mp hx
  exact sbox_lt y (hlt y hy)

theorem invSubBytes_subBytes (l : List Nat) (hlt : bytesLt l) :
    invSubBytes (subBytes l) = l := by
  unfold invSubBytes subBytes
  rw [List.map_map]
  calc l.map (invSbox ∘ sbox) = l.map id :=
        List.map_congr_left fun x hx => invSbox_sbox x (hlt x hx)
    _ = l := List.map_id l

theorem mixColumns_blockOk (l : List Nat) (h : blockOk l) :
    blockOk (mixColumns l) := by
  obtain ⟨hlen, hlt⟩ := h
  obtain ⟨a0, a1, a2, a3, a4, a5, a6, a7, a8, a9, a10, a11, a12, a13, a14, a15,
    rfl⟩ := list_eq_16 l hlen
  have hb : ∀ x ∈ [a0, a1, a2, a3, a4, a5, a6, a7, a8, a9, a10, a11, a12, a13,
      a14, a15], x < 256 := hlt
  simp only [List.mem_cons, List.not_mem_nil, or_false] at hb
  have h0 : a0 < 256 := hb a0 (by tauto)
  have h1 : a1 < 256 := hb a1 (by tauto)
  have h2 : a2 < 256 := hb a2 (by tauto)
  have h3 : a3 < 256 := hb a3 (by tauto)
  have h4 : a4 < 256 := hb a4 (by tauto)
  have h5 : a5 < 256 := hb a5 (by tauto)
  have h6 : a6 < 256 := hb a6 (by tauto)
  have h7 : a7 < 256 := hb a7 (by tauto)
  have h8 : a8 < 256 := hb a8 (by tauto)
  have h9 : a9 < 256 := hb a9 (by tauto)
  have h10 : a10 < 256 := hb a10 (by tauto)
  have h11 : a11 < 256 := hb a11 (by tauto)
  have h12 : a12 < 256 := hb a12 (by tauto)
  have h13 : a13 < 256 := hb a13 (by tauto)
  have h14 : a14 < 256 := hb a14 (by tauto)
  have h15 : a15 < 256 := hb a15 (by tauto)
  constructor
  · rfl
  · intro x hx
    simp only [mixColumns, mixCol, List.cons_append, List.nil_append,
      List.mem_cons, List.not_mem_nil, or_false] at hx
    rcases hx with rfl | rfl | rfl | rfl | rfl | rfl | rfl | rfl | rfl | rfl |
      rfl | rfl | rfl | rfl | rfl | rfl <;>
      first
      | exact xor_lt256 (xor_lt256 (xor_lt256 (g2_lt (by assumption))
          (g3_lt (by assumption))) (by assumption)) (by assumption)
      | exact xor_lt256 (xor_lt256 (xor_lt256 (by assumption)
          (g2_lt (by assumption))) (g3_lt (by assumption))) (by assumption)
      | exact xor_lt256 (xor_lt256 (xor_lt256 (by assumption) (by assumption))
          (g2_lt (by assumption))) (g3_lt (by assumption))
      | exact xor_lt256 (xor_lt256 (xor_lt256 (g3_lt (by assumption))
          (by assumption)) (by assumption)) (g2_lt (by assumption))

theorem invMixColumns_mixColumns (l : List Nat) (h : blockOk l) :
    invMixColumns (mixColumns l) = l := by
  obtain ⟨hlen, hlt⟩ := h
  obtain ⟨a0, a1, a2, a3, a4, a5, a6, a7, a8, a9, a10, a11, a12, a13, a14, a15,
    rfl⟩ := list_eq_16 l hlen
  have hb : ∀ x ∈ [a0, a1, a2, a3, a4, a5, a6, a7, a8, a9, a10, a11, a12, a13,
      a14, a15], x < 256 := hlt
  simp only [List.mem_cons, List.not_mem_nil, or_false] at hb
  have h0 : a0 < 256 := hb a0 (by tauto)
  have h1 : a1 < 256 := hb a1 (by tauto)
  have h2 : a2 < 256 := hb a2 (by tauto)
  have h3 : a3 < 256 := hb a3 (by tauto)
  have h4 : a4 < 256 := hb a4 (by tauto)
  have h5 : a5 < 256 := hb a5 (by tauto)
  have h6 : a6 < 256 := hb a6 (by tauto)
  have h7 : a7 < 256 := hb a7 (by tauto)
  have h8 : a8 < 256 := hb a8 (by tauto)
  have h9 : a9 < 256 := hb a9 (by tauto)
  have h10 : a10 < 256 := hb a10 (by tauto)
  have h11 : a11 < 256 := hb a11 (by tauto)
  have h12 : a12 < 256 := hb a12 (by tauto)
  have h13 : a13 < 256 := hb a13 (by tauto)
  have h14 : a14 < 256 := hb a14 (by tauto)
  have h15 : a15 < 256 := hb a15 (by tauto)
  simp only [mixColumns, mixCol, List.cons_append, List.nil_append,
    invMixColumns]
  rw [invMixCol_mixCol h0 h1 h2 h3, invMixCol_mixCol h4 h5 h6 h7,
    invMixCol_mixCol h8 h9 h10 h11, invMixCol_mixCol h12 h13 h14 h15]
  rfl

theorem xor_zipWith_cancel : ∀ (as bs : List Nat),
    List.zipWith (· ^^^ ·) as (List.zipWith (· ^^^ ·) as bs) =
      bs.take as.length := by
  intro as
  induction as with
  | nil => intro bs; rfl
  | cons a as ih =>
      intro bs
      cases bs with
      | nil => rfl
      | cons b bs => simp [List.zipWith, ih, Nat.xor_cancel_left]

theorem addRoundKey_cancel (rk st : List Nat) (h : rk.length = st.length) :
    addRoundKey rk (addRoundKey rk st) = st := by
  unfold addRoundKey
  rw [xor_zipWith_cancel, h, List.take_length]

theorem zipWith_xor_bytesLt : ∀ (as bs : List Nat), bytesLt as → bytesLt bs →
    bytesLt (List.zipWith (· ^^^ ·) as bs) := by
  intro as
  induction as with
  | nil => intro bs _ _ x hx; simp at hx
  | cons a as ih =>
      intro bs ha hb x hx
      cases bs with
      | nil => simp at hx
      | cons b bs =>
          simp only [List.zipWith, List.mem_cons] at hx
          rcases hx with rfl | hx
          · exact xor_lt256 (ha a (by simp)) (hb b (by simp))
          · exact ih bs (fun y hy => ha y (by simp [hy]))
              (fun y hy => hb y (by simp [hy])) x hx

theorem addRoundKey_blockOk {rk st : List Nat} (hr : blockOk rk)
    (hs : blockOk st) : blockOk (addRoundKey rk st) := by
  refine ⟨?_, zipWith_xor_bytesLt rk st hr.2 hs.2⟩
  rw [addRoundKey, List.length_zipWith, hr.1, hs.1]
  rfl

theorem subBytes_blockOk {b : List Nat} (h : blockOk b) :
    blockOk (subBytes b) :=
  ⟨by rw [subBytes_length, h.1], subBytes_bytesLt _ h.2⟩

theorem shiftRows_blockOk {b : List Nat} (h : blockOk b) :
    blockOk (shiftRows b) :=
  ⟨shiftRows_length _ h.1, shiftRows_bytesLt _ h.1 h.2⟩

/-- The state fed into each round stays a well-formed block. -/
theorem roundState_blockOk {rk b : List Nat} (hr : blockOk rk)
    (hb : blockOk b) :
    blockOk (addRoundKey rk (mixColumns (shiftRows (subBytes b)))) :=
  addRoundKey_blockOk hr (mixColumns_blockOk _ (shiftRows_blockOk (subBytes_blockOk hb)))

/-- The AES round pipeline is undone by the inverse pipeline run on the
    reversed structure (same round-key list). -/
theorem aesDecRounds_aesEncRounds :
    ∀ (rks : List (List Nat)) (b : List Nat), rksOk rks → blockOk b →
      aesDecRounds rks (aesEncRounds rks b) = b := by
  intro rks
  induction rks with
  | nil => intro b _ _; rfl
  | cons rk rest ih =>
      intro b hrks hb
      have hrk : blockOk rk := hrks rk (by simp)
      have hrest : rksOk rest := fun k hk => hrks k (by simp [hk])
      cases rest with
      | nil =>
          simp only [aesEncRounds, aesDecRounds]
          rw [addRoundKey_cancel rk _ (by
            rw [hrk.1, shiftRows_length _ (by rw [subBytes_length, hb.1])])]
          rw [invShiftRows_shiftRows _ (by rw [subBytes_length, hb.1]),
            invSubBytes_subBytes _ hb.2]
      | cons rk2 rks2 =>
          simp only [aesEncRounds, aesDecRounds]
          rw [ih _ hrest (roundState_blockOk hrk hb)]
          have hsb : blockOk (subBytes b) := subBytes_blockOk hb
          have hsr : blockOk (shiftRows (subBytes b)) := shiftRows_blockOk hsb
          have hmc : blockOk (mixColumns (shiftRows (subBytes b))) :=
            mixColumns_blockOk _ hsr
          rw [addRoundKey_cancel rk _ (by rw [hrk.1, hmc.1]),
            invMixColumns_mixColumns _ hsr,
            invShiftRows_shiftRows _ hsb.1,
            invSubBytes_subBytes _ hb.2]

/-- AES block decryption inverts block encryption for any well-formed
    expanded key. -/
theorem aesDecBlock_aesEncBlock (rks : List (List Nat)) (b : List Nat)
    (hrks : rksOk rks) (hb : blockOk b) :
    aesDecBlock rks (aesEncBlock rks b) = b := by
  cases rks with
  | nil => rfl
  | cons rk rest =>
      have hrk : blockOk rk := hrks rk (by simp)
      have hrest : rksOk rest := fun k hk => hrks k (by simp [hk])
      simp only [aesEncBlock, aesDecBlock]
      rw [aesDecRounds_aesEncRounds rest _ hrest (addRoundKey_blockOk hrk hb)]
      exact addRoundKey_cancel rk b (by rw [hrk.1, hb.1])

theorem aesEncRounds_blockOk :
    ∀ (rks : List (List Nat)) (b : List Nat), rksOk rks → blockOk b →
      blockOk (aesEncRounds rks b) := by
  intro rks
  induction rks with
  | nil => intro b _ hb; exact hb
  | cons rk rest ih =>
      intro b hrks hb
      have hrk : blockOk rk := hrks rk (by simp)
      have hrest : rksOk rest := fun k hk => hrks k (by simp [hk])
      cases rest with
      | nil =>
          simp only [aesEncRounds]
          exact addRoundKey_blockOk hrk (shiftRows_blockOk (subBytes_blockOk hb))
      | cons rk2 rks2 =>
          simp only [aesEncRounds]
          exact ih _ hrest (roundState_blockOk hrk hb)

theorem aesEncBlock_blockOk (rks : List (List Nat)) (b : List Nat)
    (hrks : rksOk rks) (hb : blockOk b) : blockOk (aesEncBlock rks b) := by
  cases rks with
  | nil => exact hb
  | cons rk rest =>
      have hrk : blockOk rk := hrks rk (by simp)
      have hrest : rksOk rest := fun k hk => hrks k (by simp [hk])
      simp only [aesEncBlock]
      exact aesEncRounds_blockOk rest _ hrest (addRoundKey_blockOk hrk hb)

/-! ## C5 — crypto stage D: CBC mode, chunking, padding -/

theorem xorBlock_blockOk {a b : List Nat} (ha : blockOk a) (hb : blockOk b) :
    blockOk (xorBlock a b) := by
  refine ⟨?_, zipWith_xor_bytesLt a b ha.2 hb.2⟩
  rw [xorBlock, List.length_zipWith, ha.1, hb.1]
  rfl

theorem xorBlock_cancel {iv b : List Nat} (hiv : blockOk iv)
    (hb : blockOk b) : xorBlock iv (xorBlock iv b) = b := by
  unfold xorBlock
  rw [xor_zipWith_cancel, hiv.1, ← hb.1, List.take_length]

theorem cbcEncBlocks_blockOk (rks : List (List Nat)) (hrks : rksOk rks) :
    ∀ (bs : List (List Nat)) (iv : List Nat), blockOk iv →
      (∀ b ∈ bs, blockOk b) → ∀ c ∈ cbcEncBlocks rks iv bs, blockOk c := by
  intro bs
  induction bs with
  | nil => intro iv _ _ c hc; simp [cbcEncBlocks] at hc
  | cons b bs ih =>
      intro iv hiv hbs c hc
      have hb : blockOk b := hbs b (by simp)
      have henc : blockOk (aesEncBlock rks (xorBlock iv b)) :=
        aesEncBlock_blockOk rks _ hrks (xorBlock_blockOk hiv hb)
      simp only [cbcEncBlocks, List.mem_cons] at hc
      rcases hc with rfl | hc
      · exact henc
      · exact ih _ henc (fun x hx => hbs x (by simp [hx])) c hc

theorem cbcDecBlocks_cbcEncBlocks (rks : List (List Nat)) (hrks : rksOk rks) :
    ∀ (bs : List (List Nat)) (iv : List Nat), blockOk iv →
      (∀ b ∈ bs, blockOk b) →
      cbcDecBlocks rks iv (cbcEncBlocks rks iv bs) = bs := by
  intro bs
  induction bs with
  | nil => intro iv _ _; rfl
  | cons b bs ih =>
      intro iv hiv hbs
      have hb : blockOk b := hbs b (by simp)
      have hxb : blockOk (xorBlock iv b) := xorBlock_blockOk hiv hb
      have henc : blockOk (aesEncBlock rks (xorBlock iv b)) :=
        aesEncBlock_blockOk rks _ hrks hxb
      simp only [cbcEncBlocks, cbcDecBlocks]
      rw [aesDecBlock_aesEncBlock rks _ hrks hxb, xorBlock_cancel hiv hb,
        ih _ henc (fun x hx => hbs x (by simp [hx]))]

/-- Splitting a concatenation of 16-byte blocks recovers the blocks. -/
theorem chunks16_flatten : ∀ (bs : List (List Nat)),
    (∀ b ∈ bs, b.length = 16) → chunks16 bs.flatten = bs := by
  intro bs
  induction bs with
  | nil => intro _; rfl
  | cons b bs ih =>
      intro h
      obtain ⟨a0, a1, a2, a3, a4, a5, a6, a7, a8, a9, a10, a11, a12, a13, a14,
        a15, rfl⟩ := list_eq_16 b (h b (by simp))
      have ihh := ih (fun x hx => h x (by simp [hx]))
      simp [chunks16, ihh]

/-- Chunking a block-aligned byte list: the chunks are all 16 long and
    flatten back to the list. -/
theorem chunks16_spec (l : List Nat) (h : l.length % 16 = 0) :
    (chunks16 l).flatten = l ∧ ∀ c ∈ chunks16 l, c.length = 16 := by
  by_cases hnil : l = []
  · subst hnil
    exact ⟨rfl, by intro c hc; simp [chunks16] at hc⟩
  · have hpos : 0 < l.length := List.length_pos.mpr hnil
    have h16 : 16 ≤ l.length := by omega
    have htake : (l.take 16).length = 16 := by
      rw [List.length_take]
      omega
    obtain ⟨a0, a1, a2, a3, a4, a5, a6, a7, a8, a9, a10, a11, a12, a13, a14,
      a15, heq⟩ := list_eq_16 (l.take 16) htake
    have hsplit : l = a0 :: a1 :: a2 :: a3 :: a4 :: a5 :: a6 :: a7 :: a8 ::
        a9 :: a10 :: a11 :: a12 :: a13 :: a14 :: a15 :: l.drop 16 := by
      conv_lhs => rw [← List.take_append_drop 16 l]
      rw [heq]
      rfl
    have hlen : (l.drop 16).length % 16 = 0 := by
      rw [List.length_drop]
      omega
    have hlt : (l.drop 16).length < l.length := by
      rw [List.length_drop]
      omega
    obtain ⟨ihf, ihc⟩ := chunks16_spec (l.drop 16) hlen
    rw [hsplit]
    simp only [chunks16]
    constructor
    · simp only [List.flatten_cons, List.cons_append, List.nil_append, ihf]
    · intro c hc
      simp only [List.mem_cons] at hc
      rcases hc with rfl | hc
      · rfl
      · exact ihc c hc
termination_by l.length
decreasing_by
  simpa using hlt

theorem pkcs7pad_length (data : List Nat) :
    (pkcs7pad data).length % 16 = 0 := by
  unfold pkcs7pad
  rw [List.length_append, List.length_replicate]
  omega

theorem pkcs7pad_bytesLt (data : List Nat) (h : bytesLt data) :
    bytesLt (pkcs7pad data) := by
  intro x hx
  unfold pkcs7pad at hx
  rw [List.mem_append] at hx
  rcases hx with hx | hx
  · exact h x hx
  · rw [List.eq_of_mem_replicate hx]
    omega

theorem getLast?_replicate_pos (n a : Nat) (h : 0 < n) :
    (List.replicate n a).getLast? = some a := by
  obtain ⟨m, rfl⟩ : ∃ m, n = m + 1 := ⟨n - 1, by omega⟩
  rw [List.replicate_succ', List.getLast?_append_of_ne_nil _ (by simp)]
  rfl

theorem pkcs7unpad_pkcs7pad (data : List Nat) :
    pkcs7unpad (pkcs7pad data) = .ok data := by
  set n := 16 - data.length % 16 with hn
  have hn1 : 1 ≤ n := by omega
  have hn16 : n ≤ 16 := by omega
  have hpad : pkcs7pad data = data ++ List.replicate n n := rfl
  have hlen : (pkcs7pad data).length = data.length + n := by
    rw [hpad, List.length_append, List.length_replicate]
  have hmod : (pkcs7pad data).length % 16 = 0 := pkcs7pad_length data
  have hg : (pkcs7pad data).getLast?.getD 0 = n := by
    rw [hpad, List.getLast?_append_of_ne_nil _ (by simp; omega),
      getLast?_replicate_pos n n (by omega)]
    rfl
  unfold pkcs7unpad
  rw [if_neg (by omega), hg]
  rw [if_pos ?hcond]
  case hcond =>
    refine ⟨hn1, hn16, by omega, ?_⟩
    rw [hlen, show data.length + n - n = data.length from by omega, hpad,
      List.drop_left data _, List.all_eq_true]
    intro x hx
    simp [List.eq_of_mem_replicate hx]
  rw [hlen, show data.length + n - n = data.length from by omega, hpad,
    List.take_left data _]

/-! ## C5 — crypto stage E: base64 -/

theorem b64Val_b64Char : ∀ i, i < 64 → b64Val (b64Char i) = some i := by decide

theorem b64Char_ne_61 : ∀ i, i < 64 → ¬ b64Char i = 61 := by decide

theorem b64_roundtrip_fuel : ∀ (m : Nat) (l : List Nat), l.length ≤ m →
    bytesLt l → b64decode (b64encode l) = .ok l := by
  intro m
  induction m with
  | zero =>
      intro l hl _
      have hnil : l = [] := List.eq_nil_of_length_eq_zero (by omega)
      rw [hnil]
      rfl
  | succ m ih =>
      intro l hl h
      match l with
      | [] => rfl
      | [a] =>
          have ha : a < 256 := h a (by simp)
          have h1 : a / 4 < 64 := by omega
          have h2 : a % 4 * 16 < 64 := by omega
          simp [b64encode, b64decode, b64Val_b64Char _ h1, b64Val_b64Char _ h2]
          omega
      | [a, b] =>
          have ha : a < 256 := h a (by simp)
          have hb : b < 256 := h b (by simp)
          have h1 : a / 4 < 64 := by omega
          have h2 : a % 4 * 16 + b / 16 < 64 := by omega
          have h3 : b % 16 * 4 < 64 := by omega
          have hne : ¬ b64Char (b % 16 * 4) = 61 := b64Char_ne_61 _ h3
          simp [b64encode, b64decode, hne, b64Val_b64Char _ h1,
            b64Val_b64Char _ h2, b64Val_b64Char _ h3]
          constructor <;> omega
      | a :: b :: c :: rest =>
          have ha : a < 256 := h a (by simp)
          have hb : b < 256 := h b (by simp)
          have hc : c < 256 := h c (by simp)
          have h1 : a / 4 < 64 := by omega
          have h2 : a % 4 * 16 + b / 16 < 64 := by omega
          have h3 : b % 16 * 4 + c / 64 < 64 := by omega
          have h4 : c % 64 < 64 := by omega
          have hne3 : ¬ b64Char (b % 16 * 4 + c / 64) = 61 := b64Char_ne_61 _ h3
          have hne4 : ¬ b64Char (c % 64) = 61 := b64Char_ne_61 _ h4
          have hrest : b64decode (b64encode rest) = .ok rest := by
            refine ih rest ?_ (fun x hx => h x (by simp [hx]))
            simp only [List.length_cons] at hl
            omega
          simp [b64encode, b64decode, hne3, hne4, b64Val_b64Char _ h1,
            b64Val_b64Char _ h2, b64Val_b64Char _ h3, b64Val_b64Char _ h4,
            hrest]
          refine ⟨by omega, by omega, by omega⟩

theorem b64decode_b64encode (l : List Nat) (h : bytesLt l) :
    b64decode (b64encode l) = .ok l :=
  b64_roundtrip_fuel l.length l (le_refl _) h

/-! ## C5 — assembled codec roundtrip -/

theorem nexRoundKeys_ok : rksOk nexRoundKeys := by decide

theorem zeroIV_blockOk : blockOk zeroIV := by decide

theorem flatten_length_16 : ∀ (bs : List (List Nat)),
    (∀ b ∈ bs, b.length = 16) → bs.flatten.length = 16 * bs.length := by
  intro bs
  induction bs with
  | nil => intro _; rfl
  | cons b rest ih =>
      intro h
      rw [List.flatten_cons, List.length_append, h b (by simp),
        ih (fun x hx => h x (by simp [hx])), List.length_cons]
      ring

theorem decrypt_eq_of_b64 (p ct : List Nat) (h : b64decode p = .ok ct) :
    decrypt p = decryptRaw ct := by
  unfold decrypt
  rw [h]

/-- C5: for every byte string (the UTF-8 encoding of the plaintext) of at
    most 1 MiB, decrypt inverts encrypt; moreover the emitted text frame
    base64-decodes to a ciphertext whose length is a multiple of 16 and
    whose AES-256-CBC decryption under the fixed key and zero IV, after
    PKCS#7 unpadding, is the original plaintext (that is what decrypt
    computes). -/
theorem encrypt_decrypt_roundtrip :
    ∀ (msg : List Nat), bytesLt msg → msg.length ≤ 1048576 →
      decrypt (encrypt msg) = .ok msg ∧
      ∃ ct, b64decode (encrypt msg) = .ok ct ∧ ct.length % 16 = 0 := by
  intro msg hmsg _
  have hpadLt : bytesLt (pkcs7pad msg) := pkcs7pad_bytesLt msg hmsg
  have hpadMod : (pkcs7pad msg).length % 16 = 0 := pkcs7pad_length msg
  obtain ⟨hflat, hchunklen⟩ := chunks16_spec (pkcs7pad msg) hpadMod
  have hblocks : ∀ b ∈ chunks16 (pkcs7pad msg), blockOk b := by
    intro b hb
    refine ⟨hchunklen b hb, fun x hx => hpadLt x ?_⟩
    rw [← hflat]
    exact List.mem_flatten.mpr ⟨b, hb, hx⟩
  have hct : ∀ c ∈ cbcEncBlocks nexRoundKeys zeroIV (chunks16 (pkcs7pad msg)),
      blockOk c :=
    cbcEncBlocks_blockOk nexRoundKeys nexRoundKeys_ok _ _ zeroIV_blockOk hblocks
  have hctLt : bytesLt
      (cbcEncBlocks nexRoundKeys zeroIV (chunks16 (pkcs7pad msg))).flatten := by
    intro x hx
    obtain ⟨b, hb, hxb⟩ := List.mem_flatten.mp hx
    exact (hct b hb).2 x hxb
  have hctLen :
      (cbcEncBlocks nexRoundKeys zeroIV (chunks16 (pkcs7pad msg))).flatten.length
        % 16 = 0 := by
    rw [flatten_length_16 _ (fun b hb => (hct b hb).1)]
    omega
  have hb64 : b64decode (encrypt msg) =
      .ok (cbcEncBlocks nexRoundKeys zeroIV (chunks16 (pkcs7pad msg))).flatten := by
    unfold encrypt
    exact b64decode_b64encode _ hctLt
  constructor
  · rw [decrypt_eq_of_b64 _ _ hb64]
    unfold decryptRaw
    rw [if_neg (not_not_intro hctLen),
      chunks16_flatten _ (fun b hb => (hct b hb).1),
      cbcDecBlocks_cbcEncBlocks nexRoundKeys nexRoundKeys_ok _ _
        zeroIV_blockOk hblocks,
      hflat]
    exact pkcs7unpad_pkcs7pad msg
  · exact ⟨_, hb64, hctLen⟩

/-- Witness for C5 at the two-byte plaintext "hi". -/
theorem encrypt_decrypt_roundtrip_witness :
    decrypt (encrypt [104, 105]) = .ok [104, 105] :=
  (encrypt_decrypt_roundtrip [104, 105] (by decide) (by decide)).1

end NexRemote
